import Mathlib

/-!
Verification of the js-gedcom library (gedcom7code/js-gedcom) against its
natural-language specification.

The source files are shallowly embedded below.  JavaScript strings are
modelled as Lean `String`/`List Char` (the inputs of interest are ASCII, so
UTF-16 code units and Unicode scalar values agree); JavaScript numbers
produced by `Number(...)` on digit strings are modelled as `Nat`; `undefined`
fields are modelled with `Option`.  Regular expressions used by the source
are replaced by hand-written scanners that are equivalent on all inputs (the
equivalence argument is given in the comments of each scanner, since the
regexes in question are deterministic after greedy maximal-munch of disjoint
character classes).  Error/warning sinks (`lookup.err` / `lookup.warn`) are
modelled as accumulated lists of messages.
-/

namespace JsGedcom

/-! ## Decimal digit helpers

`Number("...")` on an all-digit string and the decimal printing done by JS
template interpolation / `String(n)` are modelled by `digitsToNat` and
`natToDigits`.  JavaScript numbers are IEEE-754 doubles: parsing and
printing agree with the exact `Nat` model digit for digit only for
integers up to `Number.MAX_SAFE_INTEGER + 1 = 2^53` (beyond that parsing
rounds, and from `1e21` printing switches to exponential notation such as
`"1e+21"`).  Every theorem below that depends on printing a parsed number
therefore restricts itself to the safe range through `jsSafeInt`. -/

/-- Value of a list of decimal digit characters, most significant first,
with an accumulator (`Number("007") = 7`: leading zeros are allowed). -/
def digitsToNatAux (acc : Nat) : List Char → Nat
  | [] => acc
  | c :: cs => digitsToNatAux (acc * 10 + (c.toNat - 48)) cs

def digitsToNat (cs : List Char) : Nat := digitsToNatAux 0 cs

/-- Decimal digits of `n`, most significant first, no leading zeros
(the digits JavaScript prints for a natural number in the safe integer
range `n ≤ 2^53`; see the section comment).  Defined with explicit
fuel so that it is structurally recursive (and hence evaluable by `decide`
and `rfl`); `natToDigits` supplies sufficient fuel. -/
def natToDigitsAux : Nat → Nat → List Char
  | 0, _ => []
  | f + 1, n =>
    if n < 10 then [Nat.digitChar n]
    else natToDigitsAux f (n / 10) ++ [Nat.digitChar (n % 10)]

def natToDigits (n : Nat) : List Char := natToDigitsAux (n + 1) n

/-- The JS double holding this optional component is exact and prints as
its plain decimal digits: `undefined`, or an integer of at most
`Number.MAX_SAFE_INTEGER + 1 = 2^53` (below the `1e21` exponential-notation
threshold). -/
def jsSafeInt : Option Nat → Bool
  | none => true
  | some n => n ≤ 9007199254740992

/-- Greedy scan of one-or-more decimal digits (`[0-9]+`), returning the value
and the remaining characters; `none` if the input does not start with a digit. -/
def scanDigits (cs : List Char) : Option (Nat × List Char) :=
  let ds := cs.takeWhile Char.isDigit
  if ds.isEmpty then none else some (digitsToNat ds, cs.dropWhile Char.isDigit)

/-- `JSON.stringify` applied to a string: the embedding only ever applies it
to strings without `"` or `\` or control characters, on which it just wraps
the string in quotes. -/
def jsStringify (s : String) : String := "\"" ++ s ++ "\""

/-! ## `G7Age` (class `G7Age` of g7datatypes.js; in the concatenated
src/simpleValidator.js it is lines 200-247).

Source fields: `mod` (`'<'`/`'>'`/`undefined`), `years`, `months`, `weeks`,
`days` (non-negative integers or `undefined`).  The constructor applies the
regex

  `^(?:([<>]))?(?:([0-9]+)y(?: |$))?(?:([0-9]+)m(?: |$))?(?:([0-9]+)w(?: |$))?(?:([0-9]+)d)?$`

and when it fails to match, or matches with none of the four numeric groups
present, reports `Invalid age: ...` and yields the sentinel
`{mod:'>', years:0}`. -/

structure G7Age where
  mod : Option Char
  years : Option Nat
  months : Option Nat
  weeks : Option Nat
  days : Option Nat
deriving DecidableEq, Repr

/-- The optional leading `(?:([<>]))?` group. -/
def scanMod (cs : List Char) : Option Char × List Char :=
  match cs with
  | c :: rest =>
    if c = '<' then (some '<', rest)
    else if c = '>' then (some '>', rest)
    else (none, cs)
  | [] => (none, cs)

/-- One component group `(?:([0-9]+)X(?: |$))?` (for `eatSpace = true`) or
`(?:([0-9]+)X)?` (for `eatSpace = false`, the final `d` group).  The group is
optional: when it cannot match at the current position nothing is consumed.
This is equivalent to the regex: the digit class is disjoint from the suffix
letters, so greedy maximal-munch is deterministic, and when the group fails
no later group (each of which begins with a digit and uses a different
suffix letter) nor the final `$` anchor can consume the same characters, so
a backtracking engine finds no alternative parse either. -/
def ageGroup (suffix : Char) (eatSpace : Bool) (cs : List Char) :
    Option Nat × List Char :=
  match scanDigits cs with
  | some (n, c :: rest) =>
    if c = suffix then
      if eatSpace then
        match rest with
        | ' ' :: r2 => (some n, r2)
        | [] => (some n, [])
        | _ => (none, cs)
      else (some n, rest)
    else (none, cs)
  | some (_, []) => (none, cs)
  | none => (none, cs)

/-- The four numeric groups followed by the `$` anchor. -/
def ageScanComps (cs : List Char) :
    Option (Option Nat × Option Nat × Option Nat × Option Nat) :=
  let (y, cs) := ageGroup 'y' true cs
  let (m, cs) := ageGroup 'm' true cs
  let (w, cs) := ageGroup 'w' true cs
  let (d, cs) := ageGroup 'd' false cs
  if cs.isEmpty then some (y, m, w, d) else none

/-- `new G7Age(payload, lookup)` for a string payload, returning the parsed
age together with the messages sent to `lookup.err`.
(`if (!payload) return` keeps every field undefined for the empty string;
a matched digit group is always a nonempty string, hence truthy, so the
`(!m[2] && !m[3] && !m[4] && !m[5])` test is "no numeric group matched".) -/
def ageFromString (payload : String) : G7Age × List String :=
  if payload = "" then (⟨none, none, none, none, none⟩, [])
  else
    let (mod, cs) := scanMod payload.data
    match ageScanComps cs with
    | some (y, m, w, d) =>
      if y = none ∧ m = none ∧ w = none ∧ d = none then
        (⟨some '>', some 0, none, none, none⟩, ["Invalid age: " ++ jsStringify payload])
      else (⟨mod, y, m, w, d⟩, [])
    | none =>
      (⟨some '>', some 0, none, none, none⟩, ["Invalid age: " ++ jsStringify payload])

/-- JavaScript truthiness filter for an optional number: `undefined` and `0`
are falsy (`if (this.years) ...`), so a `0`-valued component is rendered
exactly like an undefined one. -/
def truthyNat : Option Nat → Option Nat
  | none => none
  | some n => if n = 0 then none else some n

/-- One rendered component: digits of `n` followed by its letter, with the
trailing space the source writes for the `y`/`m`/`w` components. -/
def ageChunk (suffix : Char) (o : Option Nat) (sp : Bool) : List Char :=
  match o with
  | some n => natToDigits n ++ (if sp then [suffix, ' '] else [suffix])
  | none => []

/-- `.trim()` of the source: the built string contains no whitespace other
than the single spaces after the `y`/`m`/`w` components, so trimming reduces
to removing trailing spaces. -/
def trimTrailingSpaces (cs : List Char) : List Char :=
  (cs.reverse.dropWhile (· = ' ')).reverse

/-- `(this.mod || '')`. -/
def modChars : Option Char → List Char
  | some c => [c]
  | none => []

/-- `G7Age.prototype.toString`:
`(this.mod || '') + (this.years ? this.years+'y ' : '') + ... +
 (this.days ? this.days+'d' : '')`, then `.trim()`. -/
def ageToString (a : G7Age) : String :=
  String.mk (trimTrailingSpaces
    (modChars a.mod ++
      (ageChunk 'y' (truthyNat a.years) true
        ++ ageChunk 'm' (truthyNat a.months) true
        ++ ageChunk 'w' (truthyNat a.weeks) true
        ++ ageChunk 'd' (truthyNat a.days) false)))

/-- `G7Age.prototype.isEmpty`. -/
def ageIsEmpty (a : G7Age) : Bool :=
  a.years = none ∧ a.months = none ∧ a.weeks = none ∧ a.days = none

/-- No defined component of the age is zero (a zero-valued component is
JS-falsy and would be omitted by `toString`). -/
def ageNoZero (a : G7Age) : Prop :=
  a.years ≠ some 0 ∧ a.months ≠ some 0 ∧ a.weeks ≠ some 0 ∧ a.days ≠ some 0

/-- Every defined component is in the JS safe integer range, where the
source's `Number` parse is exact and its printing is the plain decimal
digits (`jsSafeInt`).  A larger component round-trips differently in the
source: from `1e21` the interpolation `this.years+'y '` uses exponential
notation (`"1e+21y"`), which the age regex then rejects. -/
def ageSafe (a : G7Age) : Bool :=
  jsSafeInt a.years && jsSafeInt a.months && jsSafeInt a.weeks && jsSafeInt a.days

/-! ## `G7Time` (class `G7Time` of g7datatypes.js; lines 393-428 of the
concatenated src/simpleValidator.js).

Fields `hour`, `minute` (numbers), `second` (number or undefined), `tz`
(`"Z"` or undefined).  The constructor applies the regex

  `^([01]?[0-9]|2[0-3]):([0-5][0-9])(?::([0-5][0-9](?:[.][0-9]+)?))?(?:(Z))?$`

and on failure reports `Invalid time: ...` and yields midnight
`{hour:0, minute:0}`.

The seconds capture may have a fractional part; `Number(m[3])` produces a
JavaScript double, and `toString` prints `(100+this.second).toString()`.
The embedding models the seconds value as the pair of its integer part and
its fractional digits with trailing zeros removed — the double's shortest
decimal rendering for the common short fractions.  For long fractions the
double arithmetic is *not* exact (`100+second` rounds, so e.g.
`"10:15:05.123456789012345678"` prints back fewer digits in the source),
which is why the round-trip claim below is restricted by `timeIntSeconds`
to fraction-free seconds, where every quantity is an exact small integer
and the embedding prints digit for digit what the source prints. -/

structure G7Time where
  hour : Nat
  minute : Nat
  /-- integer part of the seconds and its fractional digits, most
  significant first, trailing zeros removed; `none` when `m[3]` was
  undefined (note `m[3] && Number(m[3])` is never falsy-but-defined because
  `[0-5][0-9]` captures are nonempty strings). -/
  second : Option (Nat × List Char)
  tz : Option Char
deriving DecidableEq, Repr

def charVal (c : Char) : Nat := c.toNat - 48

/-- The `([01]?[0-9]|2[0-3])` group followed by the `:` literal.  The
returned remainder starts at the `:`.  Follows the backtracking regex: the
two-digit reading of the first alternative is preferred, falling back to a
one-digit reading (only possible when the second character is the `:`), and
then to `2[0-3]`. -/
def scanHour (cs : List Char) : Option (Nat × List Char) :=
  match cs with
  | c1 :: c2 :: rest =>
    if (c1 = '0' ∨ c1 = '1') ∧ c2.isDigit then
      some (10 * charVal c1 + charVal c2, rest)
    else if c1.isDigit ∧ c2 = ':' then
      some (charVal c1, c2 :: rest)
    else if c1 = '2' ∧ ('0' ≤ c2 ∧ c2 ≤ '3') then
      some (20 + charVal c2, rest)
    else none
  | [c1] => if c1.isDigit then some (charVal c1, []) else none
  | [] => none

/-- A `[0-5][0-9]` group (used for minutes and the seconds' integer part). -/
def scanSixty (cs : List Char) : Option (Nat × List Char) :=
  match cs with
  | c1 :: c2 :: rest =>
    if ('0' ≤ c1 ∧ c1 ≤ '5') ∧ c2.isDigit then
      some (10 * charVal c1 + charVal c2, rest)
    else none
  | _ => none

def dropTrailingZeros (cs : List Char) : List Char :=
  (cs.reverse.dropWhile (· = '0')).reverse

/-- The optional `(?:[.][0-9]+)?` fractional part: consumed only when a dot
followed by at least one digit is present (otherwise nothing is consumed and
the overall match fails at the `$` anchor, as in the regex). -/
def scanFrac (cs : List Char) : List Char × List Char :=
  match cs with
  | '.' :: rest =>
    let ds := rest.takeWhile Char.isDigit
    if ds.isEmpty then ([], cs) else (ds, rest.dropWhile Char.isDigit)
  | _ => ([], cs)

/-- `new G7Time(payload, lookup)` for a string payload, with the messages
sent to `lookup.err`. -/
def timeFromString (payload : String) : G7Time × List String :=
  let fail : G7Time × List String :=
    (⟨0, 0, none, none⟩, ["Invalid time: " ++ jsStringify payload])
  match scanHour payload.data with
  | none => fail
  | some (h, cs1) =>
    match cs1 with
    | ':' :: cs2 =>
      match scanSixty cs2 with
      | none => fail
      | some (mi, cs3) =>
        match cs3 with
        | ':' :: cs4 =>
          match scanSixty cs4 with
          | none => fail
          | some (sw, cs5) =>
            let (fr, cs6) := scanFrac cs5
            match cs6 with
            | [] => (⟨h, mi, some (sw, dropTrailingZeros fr), none⟩, [])
            | ['Z'] => (⟨h, mi, some (sw, dropTrailingZeros fr), some 'Z'⟩, [])
            | _ => fail
        | [] => (⟨h, mi, none, none⟩, [])
        | ['Z'] => (⟨h, mi, none, some 'Z'⟩, [])
        | _ => fail
    | _ => fail

/-- `(100+n).toString().substr(1)`: two-digit zero padding for `n < 100`. -/
def padHundred (n : Nat) : List Char := (natToDigits (100 + n)).drop 1

/-- `G7Time.prototype.toString`. -/
def timeToString (t : G7Time) : String :=
  String.mk
    (padHundred t.hour ++ ':' :: padHundred t.minute
      ++ (match t.second with
          | none => []
          | some (sw, fr) =>
            ':' :: padHundred sw ++ (if fr.isEmpty then [] else '.' :: fr))
      ++ (match t.tz with | some c => [c] | none => []))

def timeWf (t : G7Time) : Prop :=
  t.hour < 24 ∧ t.minute < 60
    ∧ (∀ sw fr, t.second = some (sw, fr) →
        sw < 60 ∧ (∀ c ∈ fr, c.isDigit = true) ∧ dropTrailingZeros fr = fr)
    ∧ (t.tz = none ∨ t.tz = some 'Z')

/-- The seconds are absent or have no fractional digits; on this domain all
of the source's number handling is exact integer arithmetic (see the
section comment). -/
def timeIntSeconds (t : G7Time) : Bool :=
  match t.second with
  | none => true
  | some (_, fr) => fr.isEmpty

/-! ## `G7Lookups` (src/g7lookups.js), the fragment used by the date
datatypes: `calendar`, `month`, `tag`, `misc`, and the deduplicating
`#err`/`#warn` sinks.  The SCHMA extension table `#ext` and the derived
"alias" side tables are modelled; the dedup sets `#olderr`/`#oldwarn` are
the `derrs`/`dwarns` fields. -/

/-- One entry of `g7.calendar`: `{type, months?, epochs?}`. -/
structure CalDef where
  type : String
  months : Option (List (String × String))
  epochs : Option (List String)
deriving DecidableEq, Repr

structure G7Lookups where
  /-- `g7.calendar`: calendar tag to definition. -/
  calendars : List (String × CalDef)
  /-- `g7.tag`: URI to recommended standard tag. -/
  tags : List (String × String)
  /-- `#ext`: documented extension tag to list of URIs. -/
  exts : List (String × List String)
  /-- `#extTag`: URI to extension tag. -/
  extTags : List (String × String)
deriving DecidableEq, Repr

/-- Error/warning sinks plus the dedup memory of `#err`/`#warn`. -/
structure Logs where
  errs : List String
  warns : List String
  derrs : List String
  dwarns : List String
deriving DecidableEq, Repr

def Logs.empty : Logs := ⟨[], [], [], []⟩

/-- JavaScript object lookup on a string-keyed table (later assignments
shadow earlier ones, so tables are kept most-recent-first).  Only own
properties are modelled: the source's `k in obj` / `obj[k]` on object
literals would also see `Object.prototype` members for the exotic keys
`toString`, `constructor` etc., which no claim involves. -/
def lkAssoc {α : Type} (l : List (String × α)) (k : String) : Option α :=
  (l.find? (fun p => p.1 = k)).map (·.2)

/-- `this.err?.(msg)`: the raw (non-deduplicating) error sink. -/
def errRaw (lg : Logs) (m : String) : Logs := {lg with errs := lg.errs ++ [m]}

/-- `#err(msg)`: deduplicating error sink. -/
def errD (lg : Logs) (m : String) : Logs :=
  if m ∈ lg.derrs then lg
  else {lg with errs := lg.errs ++ [m], derrs := lg.derrs ++ [m]}

/-- `#warn(msg)`: deduplicating warning sink. -/
def warnD (lg : Logs) (m : String) : Logs :=
  if m ∈ lg.dwarns then lg
  else {lg with warns := lg.warns ++ [m], dwarns := lg.dwarns ++ [m]}

/-- `unreg(msg)`.  (The source additionally replaces the substring
`"extension defined"` by `"extension-defined"` in the second message; no
claim depends on that text, and the replacement is omitted here.) -/
def lkUnreg (lg : Logs) (m : String) : Logs :=
  warnD (warnD lg "☛ Register extensions at https://github.com/FamilySearch/GEDCOM-registries ☚")
    ("Unregistered extension " ++ m)

/-- `undoc(msg)`. -/
def lkUndoc (lg : Logs) (m : String) : Logs :=
  warnD (warnD lg "☛ Document extensions using HEAD.SCHMA.TAG ☚")
    ("Undocumented extension " ++ m)

/-- `ambig(msg, asWarning)`. -/
def lkAmbig (lg : Logs) (m : String) (asWarning : Bool) : Logs :=
  if asWarning then warnD lg ("Ambiguous " ++ m) else errD lg ("Ambiguous " ++ m)

/-- `aliased(msg)`. -/
def lkAliased (lg : Logs) (m : String) : Logs := warnD lg ("Aliased " ++ m)

/-- `misc(tag, prefix, ambigWarn)`: generic extension tag lookup. -/
def lkMisc (lk : G7Lookups) (lg : Logs) (tag pfx : String) (ambigWarn : Bool) :
    String × Logs :=
  let lg := if tag.data.head? ≠ some '_' ∧ ¬(tag.contains ':') then
      errD lg (tag ++ " cannot be used as " ++ pfx)
    else lg
  match lkAssoc lk.exts tag with
  | none => (tag, lkUndoc lg (pfx ++ " " ++ tag))
  | some [u] => (u, lkUnreg lg (pfx ++ " " ++ u))
  | some us =>
    (tag, lkAmbig lg (pfx ++ " " ++ tag ++ "\n  could be "
      ++ String.intercalate "\n        or " us) ambigWarn)

/-- The calendar "alias" side table: definitions whose `type` URI is not
itself a key of `g7.calendar`, looked up by that URI. -/
def calAlias (lk : G7Lookups) (uri : String) : Option CalDef :=
  ((lk.calendars.map (·.2)).filter
    (fun c => (lkAssoc lk.calendars c.type).isNone)).reverse.find?
    (fun c => c.type = uri)

/-- `calendar(tag)`. -/
def lkCalendar (lk : G7Lookups) (lg : Logs) (tag : String) : CalDef × Logs :=
  match lkAssoc lk.calendars tag with
  | some cal => (cal, lg)
  | none =>
    let miscFallback : Logs → CalDef × Logs := fun lg =>
      let (t, lg) := lkMisc lk lg tag "calendar" false
      (⟨t, none, none⟩, lg)
    if tag.data.head? ≠ some '_' then
      miscFallback (errD lg ("Standard tag " ++ tag ++ " cannot identify a calendar"))
    else
      match lkAssoc lk.exts tag with
      | none => miscFallback lg
      | some uris =>
        let (found, lg) := uris.foldl
          (fun (acc : Option String × Logs) uri =>
            let (found, lg) := acc
            if (lkAssoc lk.calendars uri).isSome ∨ (calAlias lk uri).isSome then
              match found with
              | some f =>
                if f ≠ uri then
                  (found, lkAmbig lg ("calendar " ++ tag ++ " matches both "
                    ++ f ++ " and " ++ uri) false)
                else (found, lg)
              | none => (some uri, lg)
            else (found, lg))
          (none, lg)
        match found with
        | some f =>
          match lkAssoc lk.calendars f with
          | some cal => (cal, lg)
          | none =>
            let lg := lkAliased lg ("calendar " ++ f ++ " with extTag " ++ tag
              ++ "; use stdTag " ++ ((lkAssoc lk.tags f).getD "undefined") ++ " instead")
            match calAlias lk f with
            | some cal => (cal, lg)
            | none => (⟨"undefined", none, none⟩, lg)
        | none => miscFallback lg

/-- The month "alias" side table of a calendar. -/
def monthAlias (ms : List (String × String)) (uri : String) : Option String :=
  ((ms.map (·.2)).filter (fun u => (lkAssoc ms u).isNone)).reverse.find?
    (fun u => u = uri)

/-- `month(cal, tag)`. -/
def lkMonth (lk : G7Lookups) (lg : Logs) (cal : CalDef) (tag : String) :
    String × Logs :=
  match cal.months with
  | none => lkMisc lk lg tag ("calendar " ++ cal.type ++ "'s month") false
  | some ms =>
    match lkAssoc ms tag with
    | some uri => (uri, lg)
    | none =>
      if tag.data.head? ≠ some '_' then
        let lg := errD lg ("calendar " ++ cal.type ++ " does not have a month \""
          ++ tag ++ "\"")
        lkMisc lk lg tag ("calendar " ++ cal.type ++ "'s month") false
      else
        match lkAssoc lk.exts tag with
        | none => lkMisc lk lg tag ("calendar " ++ cal.type ++ "'s month") false
        | some uris =>
          let (found, lg) := uris.foldl
            (fun (acc : Option String × Logs) uri =>
              let (found, lg) := acc
              if (lkAssoc ms uri).isSome ∨ (monthAlias ms uri).isSome then
                match found with
                | some f =>
                  if f ≠ uri then
                    (found, lkAmbig lg (cal.type ++ " month " ++ tag
                      ++ " matches both " ++ f ++ " and " ++ uri) false)
                  else (found, lg)
                | none => (some uri, lg)
              else (found, lg))
            (none, lg)
          match found with
          | some f =>
            match lkAssoc ms f with
            | some uri => (uri, lg)
            | none =>
              let lg := lkAliased lg ("calendar " ++ cal.type ++ " month " ++ f
                ++ " with extTag " ++ tag ++ "; use stdTag "
                ++ ((lkAssoc lk.tags f).getD "undefined") ++ " instead")
              ((monthAlias ms f).getD "undefined", lg)
          | none =>
            let lg := errD lg ("calendar " ++ cal.type
              ++ "'s months do not include \""
              ++ String.intercalate " or " uris ++ "\"")
            lkMisc lk lg tag ("calendar " ++ cal.type ++ "'s month") false

/-- `tag(uri, extFirst)`: the recommended tag for a URI. -/
def lkTag (lk : G7Lookups) (uri : String) (extFirst : Bool) : String :=
  if extFirst then
    ((lkAssoc lk.extTags uri).orElse (fun _ => lkAssoc lk.tags uri)).getD uri
  else
    ((lkAssoc lk.tags uri).orElse (fun _ => lkAssoc lk.extTags uri)).getD uri

/-! ## `G7Date` (class `G7Date` of g7datatypes.js; lines 249-311 of the
concatenated src/simpleValidator.js).

The constructor regex is

  `^(?:(GREGORIAN|JULIAN|FRENCH_R|HEBREW|_[A-Z0-9_]+) )?(?:(?:([0-9]+) )?([A-Z_][A-Z0-9_]+) )?([0-9]+)(?: (BCE|_[A-Z0-9_]+))?$`

modelled by the deterministic scanner `dateScan`.  Committing to an
optional group when it matches is equivalent to the backtracking regex
here: each group is followed by a literal space (or `$`), the token
character classes exclude the space, and whenever a group matches at a
position, every parse that skips the group fails (a calendar keyword, or a
day/month pair, cannot be re-consumed by the later groups together with the
`$` anchor unless the remainder also parses with the group taken). -/

structure G7Date where
  calendar : String
  year : Nat
  month : Option String
  day : Option Nat
  epoch : Option String
deriving DecidableEq, Repr

/-- `[A-Z0-9_]`. -/
def isTagChar (c : Char) : Bool := ('A' ≤ c ∧ c ≤ 'Z') ∨ c.isDigit ∨ c = '_'

/-- `(GREGORIAN|JULIAN|FRENCH_R|HEBREW|_[A-Z0-9_]+) ` (with the trailing
delimiting space). -/
def scanCalTok (cs : List Char) : Option (String × List Char) :=
  match (["GREGORIAN", "JULIAN", "FRENCH_R", "HEBREW"].find?
      (fun k => (k.data ++ [' ']).isPrefixOf cs)) with
  | some k => some (k, cs.drop (k.length + 1))
  | none =>
    match cs with
    | '_' :: rest =>
      let tok := rest.takeWhile isTagChar
      if tok.isEmpty then none
      else
        match rest.dropWhile isTagChar with
        | ' ' :: r2 => some (String.mk ('_' :: tok), r2)
        | _ => none
    | _ => none

/-- `[A-Z_][A-Z0-9_]+` (at least two characters). -/
def scanMonthTok (cs : List Char) : Option (String × List Char) :=
  match cs with
  | c :: rest =>
    if (('A' ≤ c ∧ c ≤ 'Z') ∨ c = '_' : Prop) then
      let tok := rest.takeWhile isTagChar
      if tok.isEmpty then none
      else some (String.mk (c :: tok), rest.dropWhile isTagChar)
    else none
  | [] => none

/-- `(?:(?:([0-9]+) )?([A-Z_][A-Z0-9_]+) )?`: an optional month with an
optional day, each followed by a delimiting space.  The fallback order is
the regex's: day-and-month, month alone (from the same start position),
nothing. -/
def scanDayMonth (cs : List Char) : Option Nat × Option String × List Char :=
  let attemptB : Option Nat × Option String × List Char :=
    match scanMonthTok cs with
    | some (m, ' ' :: r2) => (none, some m, r2)
    | _ => (none, none, cs)
  match scanDigits cs with
  | some (d, ' ' :: r1) =>
    match scanMonthTok r1 with
    | some (m, ' ' :: r2) => (some d, some m, r2)
    | _ => attemptB
  | _ => attemptB

/-- `(?: (BCE|_[A-Z0-9_]+))?$`.  `none` means the regex fails; `some e`
gives the optional epoch. -/
def scanEpoch (cs : List Char) : Option (Option String) :=
  match cs with
  | [] => some none
  | ' ' :: rest =>
    if rest = "BCE".data then some (some "BCE")
    else
      match rest with
      | '_' :: tok =>
        if ¬tok.isEmpty ∧ tok.all isTagChar then some (some (String.mk ('_' :: tok)))
        else none
      | _ => none
  | _ => none

def dateScan (cs : List Char) :
    Option (Option String × Option Nat × Option String × Nat × Option String) :=
  let (cal, cs) :=
    match scanCalTok cs with
    | some (c, r) => ((some c : Option String), r)
    | none => (none, cs)
  let (day, mon, cs) := scanDayMonth cs
  match scanDigits cs with
  | some (y, rest) =>
    match scanEpoch rest with
    | some ep => some (cal, day, mon, y, ep)
    | none => none
  | none => none

/-- `new G7Date(payload, lookup)` for a string payload.  On regex failure
reports `Invalid date: ...` and yields `{calendar:'_ERROR', year:0}`.  A
captured day group is a nonempty digit string and hence truthy even when it
is `"0"`, so `m[2] && Number(m[2])` is modelled by the captured value. -/
def dateFromString (lk : G7Lookups) (lg : Logs) (payload : String) :
    G7Date × Logs :=
  match dateScan payload.data with
  | none =>
    (⟨"_ERROR", 0, none, none, none⟩,
     errRaw lg ("Invalid date: " ++ jsStringify payload))
  | some (calTag, day, monTag, year, epTag) =>
    let (cal, lg) := lkCalendar lk lg (calTag.getD "GREGORIAN")
    let (month, lg) :=
      match monTag with
      | some mt =>
        let (m, lg) := lkMonth lk lg cal mt
        ((some m : Option String), lg)
      | none => (none, lg)
    match epTag with
    | some ep =>
      match cal.epochs with
      | some eps =>
        if ep ∈ eps then (⟨cal.type, year, month, day, some ep⟩, lg)
        else
          (⟨cal.type, year, month, day, none⟩,
           errRaw lg ("Invalid epoch " ++ ep ++ " in calendar " ++ cal.type))
      | none => (⟨cal.type, year, month, day, some ep⟩, lg)
    | none => (⟨cal.type, year, month, day, none⟩, lg)

/-- `G7Date.prototype.toString(showGregorian)`. -/
def dateToString (lk : G7Lookups) (d : G7Date) (showGregorian : Bool) : String :=
  (if showGregorian ∨ d.calendar ≠ "https://gedcom.io/terms/v7/cal-GREGORIAN" then
    lkTag lk d.calendar false ++ " "
  else "")
  ++ (match d.day with
      | some n => String.mk (natToDigits n) ++ " "
      | none => "")
  ++ (match d.month with
      | some m => lkTag lk m false ++ " "
      | none => "")
  ++ String.mk (natToDigits d.year)
  ++ (match d.epoch with
      | some e => " " ++ e
      | none => "")

/-! ## `G7DateValue` (class `G7DateValue` of g7datatypes.js; lines 313-391
of the concatenated src/simpleValidator.js).

Constructor regex (alternatives tried in order, `(.*)` greedy so the
two-capture alternatives split at the LAST occurrence of their infix):

  `^(ABT|CAL|EST) (.*)$|^BET (.*) AND (.*)$|^BEF (.*)$|^AFT (.*)$|^FROM (.*) TO (.*)$|^FROM (.*)$|^TO (.*)$|^(.+)$`

The dispatch then tests the captures for JS truthiness (an empty capture is
falsy and falls through to the `Invalid date` branch). -/

structure G7DateValue where
  type : String
  date : Option G7Date
  date2 : Option G7Date
deriving DecidableEq, Repr

/-- Split at the LAST occurrence of `pat` (nonempty) inside `cs`:
`some (before, after)` with `cs = before ++ pat ++ after`. -/
def splitLastInfix (pat : List Char) (cs : List Char) : Option (List Char × List Char) :=
  match cs with
  | [] => none
  | c :: rest =>
    match splitLastInfix pat rest with
    | some (a, b) => some (c :: a, b)
    | none =>
      if pat.isPrefixOf (c :: rest) then some ([], (c :: rest).drop pat.length)
      else none

/-- `new G7DateValue(payload, lookup)` for a string payload. -/
def dvFromString (lk : G7Lookups) (lg : Logs) (payload : String) :
    G7DateValue × Logs :=
  let cs := payload.data
  let emptyErr : G7DateValue × Logs :=
    (⟨"empty", none, none⟩,
     if payload ≠ "" then errRaw lg ("Invalid date " ++ jsStringify payload) else lg)
  let oneDate : String → List Char → G7DateValue × Logs := fun ty rest =>
    let (d, lg) := dateFromString lk lg (String.mk rest)
    (⟨ty, some d, none⟩, lg)
  if hyp : ("ABT ".data.isPrefixOf cs ∨ "CAL ".data.isPrefixOf cs
      ∨ "EST ".data.isPrefixOf cs) then
    -- m[1] is one of ABT|CAL|EST, always truthy
    let ty := String.mk (cs.take 3)
    let (d, lg) := dateFromString lk lg (String.mk (cs.drop 4))
    (⟨ty, some d, none⟩, lg)
  else if hyp : ("BET ".data.isPrefixOf cs
      ∧ (splitLastInfix " AND ".data (cs.drop 4)).isSome) then
    match splitLastInfix " AND ".data (cs.drop 4) with
    | some (a, b) =>
      if a ≠ [] then
        let (d1, lg) := dateFromString lk lg (String.mk a)
        let (d2, lg) := dateFromString lk lg (String.mk b)
        (⟨"dateRange", some d1, some d2⟩, lg)
      else emptyErr
    | none => emptyErr
  else if "BEF ".data.isPrefixOf cs then
    let rest := cs.drop 4
    if rest ≠ [] then
      let (d, lg) := dateFromString lk lg (String.mk rest)
      (⟨"dateRange", none, some d⟩, lg)
    else emptyErr
  else if "AFT ".data.isPrefixOf cs then
    let rest := cs.drop 4
    if rest ≠ [] then
      let (d, lg) := dateFromString lk lg (String.mk rest)
      (⟨"dateRange", some d, none⟩, lg)
    else emptyErr
  else if hyp : ("FROM ".data.isPrefixOf cs
      ∧ (splitLastInfix " TO ".data (cs.drop 5)).isSome) then
    match splitLastInfix " TO ".data (cs.drop 5) with
    | some (a, b) =>
      if a ≠ [] then
        let (d1, lg) := dateFromString lk lg (String.mk a)
        let (d2, lg) := dateFromString lk lg (String.mk b)
        (⟨"DatePeriod", some d1, some d2⟩, lg)
      else emptyErr
    | none => emptyErr
  else if "FROM ".data.isPrefixOf cs then
    let rest := cs.drop 5
    if rest ≠ [] then
      let (d, lg) := dateFromString lk lg (String.mk rest)
      (⟨"DatePeriod", some d, none⟩, lg)
    else emptyErr
  else if "TO ".data.isPrefixOf cs then
    let rest := cs.drop 3
    if rest ≠ [] then
      let (d, lg) := dateFromString lk lg (String.mk rest)
      (⟨"DatePeriod", none, some d⟩, lg)
    else emptyErr
  else if cs ≠ [] then
    let (d, lg) := dateFromString lk lg payload
    (⟨"date", some d, none⟩, lg)
  else
    (⟨"empty", none, none⟩, lg)

/-- `G7DateValue.prototype.toString`, which can raise: the one-sided
`dateRange` branch reads the undefined identifier `date`
(`else if (date)`, a ReferenceError), and the `date2`-only `DatePeriod`
branch reads `this.date.toString` on an undefined `this.date`
(a TypeError). -/
def dvToString (lk : G7Lookups) (v : G7DateValue) : Except String String :=
  if v.type = "empty" then .ok ""
  else if v.type = "date" then
    match v.date with
    | some d => .ok (dateToString lk d false)
    | none => .error "TypeError: this.date is undefined"
  else if v.type = "ABT" ∨ v.type = "CAL" ∨ v.type = "EST" then
    match v.date with
    | some d => .ok (v.type ++ " " ++ dateToString lk d false)
    | none => .error "TypeError: this.date is undefined"
  else if v.type = "dateRange" then
    match v.date, v.date2 with
    | some d1, some d2 =>
      .ok ("BET " ++ dateToString lk d1 (d1.calendar ≠ d2.calendar)
        ++ " AND " ++ dateToString lk d2 (d1.calendar ≠ d2.calendar))
    | _, _ => .error "ReferenceError: date is not defined"
  else if v.type = "DatePeriod" then
    match v.date, v.date2 with
    | some d1, some d2 =>
      .ok ("FROM " ++ dateToString lk d1 (d1.calendar ≠ d2.calendar)
        ++ " TO " ++ dateToString lk d2 (d1.calendar ≠ d2.calendar))
    | some d1, none => .ok ("FROM " ++ dateToString lk d1 false)
    | none, _ => .error "TypeError: this.date is undefined"
  else .error ("Cannot serialize unknown date type " ++ v.type)

def dvIsEmpty (v : G7DateValue) : Bool := v.type = "empty"

/-! ## `G7Datatype.fromString`, case
`'https://gedcom.io/terms/v7/type-Date#period'` (lines 112-122 of
src/simpleValidator.js): parse as a `G7DateValue`, then downgrade any type
other than `DatePeriod`/`empty` to `empty`, clearing both dates and
reporting through `lookup.err`. -/

def g7PeriodFromString (lk : G7Lookups) (lg : Logs) (str : String) :
    G7DateValue × Logs :=
  let (ans, lg) := dvFromString lk lg str
  if ans.type ≠ "DatePeriod" ∧ ans.type ≠ "empty" then
    (⟨"empty", none, none⟩, errRaw lg ("Expected DatePeriod, not " ++ ans.type))
  else (ans, lg)

/-- The calendar fragment of the FamilySearch registry data
(g7validation.json).  This is an input to the library, used here to give
the witnesses and counterexamples concrete, realistic lookups. -/
def gregMonths : List (String × String) :=
  [("JAN", "https://gedcom.io/terms/v7/month-JAN"),
   ("FEB", "https://gedcom.io/terms/v7/month-FEB"),
   ("MAR", "https://gedcom.io/terms/v7/month-MAR"),
   ("APR", "https://gedcom.io/terms/v7/month-APR"),
   ("MAY", "https://gedcom.io/terms/v7/month-MAY"),
   ("JUN", "https://gedcom.io/terms/v7/month-JUN"),
   ("JUL", "https://gedcom.io/terms/v7/month-JUL"),
   ("AUG", "https://gedcom.io/terms/v7/month-AUG"),
   ("SEP", "https://gedcom.io/terms/v7/month-SEP"),
   ("OCT", "https://gedcom.io/terms/v7/month-OCT"),
   ("NOV", "https://gedcom.io/terms/v7/month-NOV"),
   ("DEC", "https://gedcom.io/terms/v7/month-DEC")]

def stdLookup : G7Lookups :=
  { calendars :=
      [("GREGORIAN",
        ⟨"https://gedcom.io/terms/v7/cal-GREGORIAN", some gregMonths, some ["BCE"]⟩),
       ("JULIAN",
        ⟨"https://gedcom.io/terms/v7/cal-JULIAN", some gregMonths, some ["BCE"]⟩)],
    tags :=
      [("https://gedcom.io/terms/v7/cal-GREGORIAN", "GREGORIAN"),
       ("https://gedcom.io/terms/v7/cal-JULIAN", "JULIAN"),
       ("https://gedcom.io/terms/v7/month-JAN", "JAN"),
       ("https://gedcom.io/terms/v7/month-FEB", "FEB"),
       ("https://gedcom.io/terms/v7/month-MAR", "MAR"),
       ("https://gedcom.io/terms/v7/month-APR", "APR"),
       ("https://gedcom.io/terms/v7/month-MAY", "MAY"),
       ("https://gedcom.io/terms/v7/month-JUN", "JUN"),
       ("https://gedcom.io/terms/v7/month-JUL", "JUL"),
       ("https://gedcom.io/terms/v7/month-AUG", "AUG"),
       ("https://gedcom.io/terms/v7/month-SEP", "SEP"),
       ("https://gedcom.io/terms/v7/month-OCT", "OCT"),
       ("https://gedcom.io/terms/v7/month-NOV", "NOV"),
       ("https://gedcom.io/terms/v7/month-DEC", "DEC")],
    exts := [],
    extTags := [] }

/-! ## GEDC tag layer: `GEDCStruct.fromString` and `fixPtrs`
(src/gedc-parser.js lines 201-274 and 62-87; the later copy in the
concatenated src/g7structure.js, lines 450-532 and 273-298, has the same
per-line logic but initializes the xref-id table as `{VOID: null}` instead
of `{}` — the table initialization is a parameter below, and
`fromStringIdsInit` models the later copy, which claim C2 cites).

The line-matching regex

  `(level)(delim)(?:@(xref)@(delim))?(tag)(?:(delim)(?:@(xref)@|(payload)))?(?:(linesep)|$)`

is not re-modelled character by character; the parser state machine below
starts from the captured tuples `(level, xref-id?, tag, pointer?, payload?)`
of the successfully matched lines (the `matchAll` loop body from the
destructuring onward).  The per-match dialect diagnostics (delimiter, tag,
xref, line separator, payload-regex and line-length checks, lines 218-245)
only log extra messages and are not modelled; no claim below is about
them. -/

/-- One regex match: `[all,l,d1,i,d2,t,d3,x,p,n]` reduced to the fields the
loop body uses.  `ptr` and `payload` are the mutually exclusive `@xref@` /
payload captures. -/
structure RawLine where
  level : Nat
  xrefId : Option String
  tag : String
  ptr : Option String
  payload : Option String
deriving DecidableEq, Repr

/-- The payload decode (line 217):
`if (p && p.length > 1 && p[0] == '@' && p[1] == '@') p = p.substr(1)`. -/
def decodePayload (p : String) : String :=
  if p.length > 1 ∧ p.data.take 2 = ['@', '@'] then String.mk (p.data.drop 1) else p

/-- A finished tag structure before pointer resolution. -/
inductive GTree where
  | mk (tag : String) (id : Option String) (ptr : Option String)
      (payload : Option String) (sub : List GTree)

/-- A structure under construction: the fields of a `GEDCStruct` while its
substructures are still being appended.  `ptr` is the temporary string
pointer (`this.ptr`), kept alongside `payload` exactly as in the source
(a CONT line after a pointer writes `payload` without clearing `ptr`). -/
structure Frame where
  tag : String
  id : Option String
  ptr : Option String
  payload : Option String
  /-- completed substructures, in order -/
  children : List GTree

def GTree.tag : GTree → String | .mk t _ _ _ _ => t

def GTree.id : GTree → Option String | .mk _ i _ _ _ => i

def GTree.ptr : GTree → Option String | .mk _ _ p _ _ => p

def GTree.payload : GTree → Option String | .mk _ _ _ p _ => p

def GTree.sub : GTree → List GTree | .mk _ _ _ _ s => s

def Frame.toTree (f : Frame) : GTree := .mk f.tag f.id f.ptr f.payload f.children

/-- The js `toString` of the numbers interpolated into parser messages
(`context.length - 1` can be `-1`). -/
def jsIntRepr (i : Int) : String :=
  if i < 0 then "-" ++ String.mk (natToDigits i.natAbs) else String.mk (natToDigits i.natAbs)

/-- The parser configuration fields used by the modelled loop body.  Only
`len` participates (`'len' in config && config.len < 0`); `none` models a
config without a `len` member. -/
structure GedcConf where
  len : Option Int

/-- `g7ConfGEDC.len = -1` (the other g7ConfGEDC fields configure the
unmodelled per-match diagnostics). -/
def g7ConfLen : GedcConf := ⟨some (-1)⟩

structure ParseState where
  /-- `context`, innermost frame first: when the stack holds `level`
  frames, `context[level-1]` is its head. -/
  stack : List Frame
  /-- completed level-0 structures, in document order (`records`; the
  source pushes each level-0 structure when created and mutates it in
  place, which is equivalent to appending it when it is popped). -/
  records : List GTree
  /-- `ids`, most-recent-first so that later `ids[i] = st` assignments
  shadow earlier ones; the value `none` is the preset `VOID: null` entry,
  `some k` a structure identified by its declared xref-id `k`. -/
  ids : List (String × Option String)
  errs : List String
  /-- `line`, the 1-based count of matches processed so far. -/
  line : Nat

/-- Pop `n` frames, attaching each popped frame to its parent (or to the
record list when it is a level-0 frame).  This realizes `context.length =
level`: the source merely truncates the array because structures are
already linked through `sup.sub`, which the functional model reproduces by
attaching on pop. -/
def closeSteps : Nat → List Frame × List GTree → List Frame × List GTree
  | 0, s => s
  | n + 1, (stack, recs) =>
    match stack with
    | [] => ([], recs)
    | [top] => closeSteps n ([], recs ++ [top.toTree])
    | top :: parent :: rest =>
      closeSteps n ({parent with children := parent.children ++ [top.toTree]} :: rest, recs)

def closeTo (level : Nat) (stack : List Frame) (recs : List GTree) :
    List Frame × List GTree :=
  closeSteps (stack.length - level) (stack, recs)

/-- One iteration of the `matchAll` loop of `GEDCStruct.fromString`, from
the capture destructuring onward (gedc-parser.js lines 214-271).  `none`
models the uncaught TypeError raised by a level-0 `CONT`/`CONC` line, which
reads `context[-1].payload` on `undefined`. -/
def stepLine (cfg : GedcConf) (st : ParseState) (ln : RawLine) : Option ParseState :=
  let line := st.line + 1
  if ln.level > st.stack.length then
    some {st with
      line := line
      errs := st.errs ++ [String.mk (natToDigits line) ++ ": level "
        ++ String.mk (natToDigits ln.level) ++ " cannot follow level "
        ++ jsIntRepr ((st.stack.length : Int) - 1)]}
  else
    let (stack, recs) := closeTo ln.level st.stack st.records
    if ln.tag = "CONT" ∨ ln.tag = "CONC" then
      match stack with
      | [] => none
      | top :: rest =>
        -- `payload instanceof GEDCStruct || 'ptr' in ...`: within
        -- `fromString` a payload is never a `GEDCStruct` (resolution
        -- happens afterwards in `fixPtrs`), so the test is the `ptr` field.
        let errs :=
          if top.ptr.isSome then
            st.errs ++ [String.mk (natToDigits line) ++ ": " ++ ln.tag
              ++ " cannot follow pointer"]
          else if ¬top.children.isEmpty then
            st.errs ++ [String.mk (natToDigits line) ++ ": " ++ ln.tag
              ++ " cannot follow substructure"]
          else st.errs
        let basePay := top.payload.getD ""
        let p := (ln.payload.map decodePayload).getD ""
        if ln.tag = "CONT" then
          some {st with
            line := line
            errs := errs
            records := recs
            stack := {top with payload := some (basePay ++ "\n" ++ p)} :: rest}
        else if (match cfg.len with | some l => decide (l < 0) | none => false) then
          some {st with
            line := line
            records := recs
            errs := errs ++ [String.mk (natToDigits line) ++ ": CONC not permitted"]
            stack := {top with payload := some basePay} :: rest}
        else
          some {st with
            line := line
            errs := errs
            records := recs
            stack := {top with payload := some (basePay ++ p)} :: rest}
    else
      -- `new GEDCStruct(t, context[level-1], x, p, i)`: a truthy `x`
      -- becomes the temporary `this.ptr` and the payload stays undefined;
      -- otherwise the (decoded) payload capture is stored.
      let fr : Frame :=
        { tag := ln.tag, id := ln.xrefId, ptr := ln.ptr,
          payload := if ln.ptr.isSome then none else ln.payload.map decodePayload,
          children := [] }
      let ids := match ln.xrefId with
        | some i => (i, some i) :: st.ids
        | none => st.ids
      some {st with
        line := line
        records := recs
        ids := ids
        stack := fr :: stack}

/-- The `var ids = {VOID: null}` initialization of `GEDCStruct.fromString`
in the later copy of the parser (concatenated src/g7structure.js line 460).
The older copy (src/gedc-parser.js line 210) initializes `ids = {}`. -/
def fromStringIdsInit : List (String × Option String) := [("VOID", none)]

/-- The `matchAll` loop over all (successfully matched) lines followed by
the implicit close-out of the context stack. -/
def runLines (cfg : GedcConf) (lines : List RawLine) (initIds : List (String × Option String)) :
    Option ParseState :=
  let st0 : ParseState := ⟨[], [], initIds, [], 0⟩
  let final := lines.foldl
    (fun acc ln => match acc with
      | none => none
      | some st => stepLine cfg st ln)
    (some st0)
  match final with
  | none => none
  | some st =>
    let (stack, recs) := closeTo 0 st.stack st.records
    some {st with stack := stack, records := recs}

/-- Resolved payloads after `fixPtrs`. -/
inductive RPayload where
  | undef
  | str (s : String)
  | nullPtr
  | ref (key : String)
deriving DecidableEq, Repr

/-- A tag structure after pointer resolution. -/
inductive RTree where
  | mk (tag : String) (id : Option String) (payload : RPayload) (sub : List RTree)

def RTree.payload : RTree → RPayload | .mk _ _ p _ => p

/-- The pointer-resolution step of `fixPtrs` (gedc-parser.js lines 63-71)
on one structure's `ptr`/`payload` fields against the xref-id table.  A
table hit whose value is the preset `null` (the `VOID` entry) stores the
null pointer without logging; a missing entry logs
`pointer to undefined xref_id @...@` and stores the null pointer. -/
def fixPay (ids : List (String × Option String)) (ptr : Option String)
    (pay : Option String) : RPayload × List String :=
  match ptr with
  | some s =>
    match lkAssoc ids s with
    | some none => (.nullPtr, [])
    | some (some k) => (.ref k, [])
    | none => (.nullPtr, ["pointer to undefined xref_id @" ++ s ++ "@"])
  | none =>
    match pay with
    | some s => (.str s, [])
    | none => (.undef, [])

mutual
/-- `fixPtrs` over a whole structure (pre-order: the structure itself, then
its substructures), accumulating the logged messages.  The identifier
minting block (lines 72-84) only assigns serialization ids to pointed-to
structures and is omitted: it alters the table only when a declared xref-id
is duplicated, which no claim involves; the table is treated as fixed
during resolution. -/
def fixTree (ids : List (String × Option String)) : GTree → RTree × List String
  | .mk tag id ptr pay sub =>
    let (rp, es) := fixPay ids ptr pay
    let (rsub, es2) := fixTrees ids sub
    (.mk tag id rp rsub, es ++ es2)
def fixTrees (ids : List (String × Option String)) :
    List GTree → List RTree × List String
  | [] => ([], [])
  | t :: ts =>
    let (r, es) := fixTree ids t
    let (rs, es2) := fixTrees ids ts
    (r :: rs, es ++ es2)
end

/-- `GEDCStruct.fromString` end to end on matched lines: run the loop, then
`records.forEach(x => x.fixPtrs(ids, logger))`. -/
def gedcFromLines (cfg : GedcConf) (lines : List RawLine) :
    Option (List RTree × List String) :=
  match runLines cfg lines fromStringIdsInit with
  | none => none
  | some st =>
    let (rs, es) := fixTrees st.ids st.records
    some (rs, st.errs ++ es)

/-! ## `GEDCStruct.toString` (gedc-parser.js lines 96-126; identical logic
at lines 342-375 of the concatenated src/g7structure.js).

The serializer is modelled on lists of lines (each line without its
terminating newline; the serialized text is the lines joined and
terminated with `newline`, here fixed at the default `'\n'`).  The
structure's payload is a string, a resolved pointer (`payload instanceof
GEDCStruct`, serialized as ` @<target id>@`), the null pointer, or
absent; a structure that is pointed to (`#ref.length > 0`) carries the
xref-id `#id` it was declared with or that `fixPtrs` minted for it, and
its leader includes the `@<id>@ ` segment.  Pointer, null-pointer and
absent payloads are emitted without any wrapping or length check.

The `while (ipt.test(ans))` loop need not terminate; it is given explicit
fuel, and exhausting the fuel models divergence (for every fuel the result
is `SRes.noFuel`). -/

inductive SPayload where
  | pstr (s : String)
  /-- a resolved pointer payload; `target` is the pointed-to structure's
  xref-id (`payload.#id`) -/
  | pref (target : String)
  | pnull
  | pnone
deriving DecidableEq, Repr

/-- A tag structure as serialized: tag, the structure's own xref-id
(`some i` when `#ref.length > 0`, i.e. something points at it and its
lines carry `@i@`; `none` otherwise), payload and substructures. -/
inductive STree where
  | mk (tag : String) (id : Option String) (payload : SPayload) (sub : List STree)

def STree.tag : STree → String | .mk t _ _ _ => t

def STree.id : STree → Option String | .mk _ i _ _ => i

def STree.payload : STree → SPayload | .mk _ _ p _ => p

def STree.sub : STree → List STree | .mk _ _ _ s => s

inductive SRes (α : Type) where
  | ok (val : α)
  | err (msg : String)
  | noFuel
deriving DecidableEq, Repr

/-- `/\r\n?|\n\r?/g`-splitting of the payload into lines. -/
def splitNewlines : List Char → List (List Char)
  | [] => [[]]
  | '\r' :: '\n' :: rest => [] :: splitNewlines rest
  | '\n' :: '\r' :: rest => [] :: splitNewlines rest
  | '\r' :: rest => [] :: splitNewlines rest
  | '\n' :: rest => [] :: splitNewlines rest
  | c :: rest =>
    match splitNewlines rest with
    | [] => [[c]]
    | l :: ls => (c :: l) :: ls

/-- `s.replace(escapes ? /^@(?!#)/ : /^@/, '@@')` on one payload line. -/
def escLine (escapes : Bool) (l : List Char) : List Char :=
  match l with
  | '@' :: rest =>
    if escapes then
      match rest with
      | '#' :: _ => l
      | _ => '@' :: l
    else '@' :: l
  | _ => l

/-- `(lines.join(newline+(level+1)+' CONT ')+newline).replaceAll('CONT '+newline, 'CONT'+newline)`:
on the line list, every line that ends in `"CONT "` loses that trailing
space (the only places `"CONT \n"` can occur in the joined string). -/
def contTrim (l : List Char) : List Char :=
  if l.reverse.take 5 = [' ', 'T', 'N', 'O', 'C'] then l.dropLast else l

/-- The `'$1'+pfx+'$2'` replacement for the first line longer than `maxlen`
(the regex `^([^\n\r]{maxlen})([^\n\r])` with the `m` flag matches the
first line, in order, having at least `maxlen+1` characters). -/
def wrapStep (maxlen : Nat) (concPfx : List Char) : List (List Char) → Option (List (List Char))
  | [] => none
  | l :: ls =>
    if l.length > maxlen then
      some (l.take maxlen :: (concPfx ++ l.drop maxlen) :: ls)
    else
      match wrapStep maxlen concPfx ls with
      | some ls2 => some (l :: ls2)
      | none => none

def wrapLoop (fuel : Nat) (maxlen : Nat) (concPfx : List Char)
    (ls : List (List Char)) : Option (List (List Char)) :=
  match fuel with
  | 0 =>
    match wrapStep maxlen concPfx ls with
    | some _ => none
    | none => some ls
  | f + 1 =>
    match wrapStep maxlen concPfx ls with
    | some ls2 => wrapLoop f maxlen concPfx ls2
    | none => some ls

/-- `ans.replace(escapes ? /^([0-9]+ CONC @(?!#))/gm : /^([0-9]+ CONC @)/gm, '$1@')`
on one line: double the `@` after a `CONC ` line prefix. -/
def concAtFix (escapes : Bool) (l : List Char) : List Char :=
  let ds := l.takeWhile Char.isDigit
  let rest := l.dropWhile Char.isDigit
  if ds.isEmpty then l
  else
    match rest with
    | ' ' :: 'C' :: 'O' :: 'N' :: 'C' :: ' ' :: '@' :: tail =>
      if escapes then
        match tail with
        | '#' :: _ => l
        | _ => ds ++ (" CONC @@".data ++ tail)
      else ds ++ (" CONC @@".data ++ tail)
    | _ => l

/-- The `leader` of a structure's first line: `` `${level} ` `` plus, for a
pointed-to structure, `` `@${this.#id}@ ` `` (gedc-parser.js line 101),
plus `this.tag`. -/
def sleader (level : Nat) (id : Option String) (tag : String) : List Char :=
  natToDigits level ++ ' '
    :: ((match id with
        | some i => '@' :: (i.data ++ ['@', ' '])
        | none => []) ++ tag.data)

/-- The lines of `ans` for a string payload before any wrapping: leader plus
first payload line (space-separated when that line is nonempty), `CONT`
continuation lines, and the `'CONT '+newline → 'CONT'+newline` cleanup. -/
def ownLinesRaw (level : Nat) (tag : String) (id : Option String)
    (escapes : Bool) (s : String) : List (List Char) :=
  let lines := (splitNewlines s.data).map (escLine escapes)
  let first :=
    match lines with
    | [] => sleader level id tag
    | l0 :: _ => sleader level id tag ++ (if l0.length > 0 then [' '] else []) ++ l0
  let contPfx := natToDigits (level + 1) ++ " CONT ".data
  (first :: (lines.drop 1).map (fun l => contPfx ++ l)).map contTrim

/-- `ans.length` for the line list (the lines joined with `'\n'` and
terminated with one). -/
def slinesLen (ls : List (List Char)) : Nat := (ls.map List.length).sum + ls.length

/-- `toString(newline, maxlen, escapes)` for one structure at depth
`level`, producing the structure's own lines (children are serialized by
`streeToString` below).  Mirrors gedc-parser.js lines 96-124 with
`newline = '\n'`. -/
def serializeOwnLines (level : Nat) (tag : String) (id : Option String)
    (payload : SPayload) (maxlen : Int) (escapes : Bool) (fuel : Nat) :
    SRes (List (List Char)) :=
  match payload with
  | .pref t => .ok [sleader level id tag ++ (' ' :: '@' :: (t.data ++ ['@']))]
  | .pnull => .ok [sleader level id tag ++ " @VOID@".data]
  | .pnone => .ok [sleader level id tag]
  | .pstr s =>
    let all := ownLinesRaw level tag id escapes s
    if maxlen > 0 ∧ (slinesLen all : Int) > maxlen then
      -- `if (maxlen < pfx + 1 || maxlen < leader.length) throw`:
      -- `pfx + 1` is the *string* `pfx+"1"`, so `maxlen < pfx + 1` compares
      -- a number with NaN and is always false; only the leader check can
      -- throw.
      if ((sleader level id tag).length : Int) > maxlen then
        .err ("length limit " ++ jsIntRepr maxlen ++ " too small to allow CONC insertion")
      else
        let concPfx := natToDigits (level + 1) ++ " CONC ".data
        match wrapLoop fuel maxlen.toNat concPfx all with
        | some wrapped => .ok (wrapped.map (concAtFix escapes))
        | none => .noFuel
    else .ok all

/-- Full serialization of a structure and its substructures
(`return ans + this.sub.map(s => s.toString(...)).join('')`). -/
def streeToString (level : Nat) (t : STree) (maxlen : Int) (escapes : Bool)
    (fuel : Nat) : SRes (List (List Char)) :=
  match t with
  | .mk tag id payload sub =>
    match serializeOwnLines level tag id payload maxlen escapes fuel with
    | .ok own =>
      let rec go : List STree → SRes (List (List Char))
        | [] => .ok []
        | c :: cs =>
          match streeToString (level + 1) c maxlen escapes fuel with
          | .ok ls =>
            match go cs with
            | .ok more => .ok (ls ++ more)
            | r => r
          | r => r
      match go sub with
      | .ok subLines => .ok (own ++ subLines)
      | .err m => .err m
      | .noFuel => .noFuel
    | r => r

/-! ## Typed layer: `G7Structure.validate` (the current copy, with error
counting, is in the concatenated src/g7lookups.js at lines 606-638; an
older copy without counting and with the `Object.values` bug is in
src/simpleValidator.js at lines 550-576).

The `sub` map (`Map<type, G7Structure[]>`, with the invariant
`sub.get(t)[i].type === t`) is modelled as the flat ordered list of
substructures; `sub.has(t)` and `sub.get(t).length` become a filtered
search.  Within one structure the messages of the recursive child pass may
interleave differently than the Map's per-type grouping, but the set and
count of messages are the same; no claim concerns their order.  Payload
values are modelled by `VPayload`, covering every payload kind
`checkDatatype` distinguishes. -/

inductive VPayload where
  | undef
  | nullp
  | ptr (targetType : String)
  | str (s : String)
  | num (n : Int)
  | age (a : G7Age)
  | time (t : G7Time)
  | date (d : G7Date)
  | datev (v : G7DateValue)
  | enumv (uri : String)
  | listText (l : List String)
  | listEnum (l : List String)
deriving DecidableEq, Repr

/-- A payload-type descriptor (`g7.payload[uri]`): `ptype` is the `type`
member (`none` models JSON `null`), with the optional `set`/`to` members. -/
structure PltDef where
  ptype : Option String
  set : Option String
  /-- the `to` member (target record type of pointer payloads) -/
  toType : Option String
deriving DecidableEq, Repr

/-- The `type-Name` regex `^[^\0-\x1f\/]*(\/[^\0-\x1f\/]*\/[^\0-\x1f\/]*)?$`:
name characters (no control characters, no slash), with an optional pair of
slashes delimiting a surname part.  Deterministic because the name
character class excludes the slash. -/
def nameGrammarOk (s : String) : Bool :=
  let isA := fun c : Char => decide (32 ≤ c.toNat) && c ≠ '/'
  let r1 := s.data.dropWhile isA
  match r1 with
  | [] => true
  | '/' :: r2 =>
    match r2.dropWhile isA with
    | '/' :: r4 => (r4.dropWhile isA).isEmpty
    | _ => false
  | _ => false

/-- `checkDatatype(payload, plt)` (g7datatypes.js; lines 175-196 of the
concatenated src/simpleValidator.js). -/
def checkDatatype (payload : VPayload) (plt : PltDef) : Bool :=
  match plt.ptype with
  | none => payload = .undef
  | some ty =>
    if ty = "?" then true
    else if ty = "pointer" then
      -- `payload === null || (payload?.type === plt.to)`: of the payload
      -- kinds, structures (pointer targets) and `G7DateValue`s have a
      -- `type` member; every other `payload?.type` is `undefined`, which
      -- never equals the string `plt.to`.
      match payload with
      | .nullp => true
      | .ptr t => plt.toType = some t
      | .datev v => plt.toType = some v.type
      | _ => false
    else if ty = "http://www.w3.org/2001/XMLSchema#nonNegativeInteger" then
      -- `'number' === typeof payload && (0|payload) == payload && payload >= 0`:
      -- `0|payload` coerces to a 32-bit integer, so integers of 2^31 or
      -- more fail the middle test.
      match payload with
      | .num n => 0 ≤ n ∧ n < 2147483648
      | _ => false
    else if ty = "https://gedcom.io/terms/v7/type-List#Text" then
      match payload with
      | .listText _ => true
      | _ => false
    else if ty = "https://gedcom.io/terms/v7/type-List#Enum" then
      match payload with
      | .listEnum _ => true
      | _ => false
    else if ty = "https://gedcom.io/terms/v7/type-Date" then
      match payload with
      | .datev _ => true
      | _ => false
    else if ty = "https://gedcom.io/terms/v7/type-Date#exact" then
      match payload with
      | .date d => d.calendar = "https://gedcom.io/terms/v7/cal-GREGORIAN" ∧ d.day ≠ none
      | _ => false
    else if ty = "https://gedcom.io/terms/v7/type-Date#period" then
      match payload with
      | .datev v => v.type = "empty" ∨ v.type = "DatePeriod"
      | _ => false
    else if ty = "https://gedcom.io/terms/v7/type-Enum" then
      match payload with
      | .enumv _ => true
      | _ => false
    else if ty = "https://gedcom.io/terms/v7/type-Age" then
      match payload with
      | .age _ => true
      | _ => false
    else if ty = "https://gedcom.io/terms/v7/type-Time" then
      match payload with
      | .time _ => true
      | _ => false
    else if ty = "Y|<NULL>" then
      -- `!payload || payload === 'Y'`: `undefined`, `null`, `0` and `""`
      -- are falsy.
      match payload with
      | .undef => true
      | .nullp => true
      | .num n => n = 0
      | .str s => s = "" ∨ s = "Y"
      | _ => false
    else if ty = "https://gedcom.io/terms/v7/type-Name" then
      match payload with
      | .str s => s ≠ "" ∧ nameGrammarOk s
      | _ => false
    else if ty = "http://www.w3.org/2001/XMLSchema#Language"
        ∨ ty = "http://www.w3.org/ns/dcat#mediaType" then
      -- `'string' == typeof payload && <grammar regex>.test(payload)`;
      -- the BCP-47 / media-type grammars are outside every claim and are
      -- modelled as an uninterpreted check on the string.
      match payload with
      | .str _ => true
      | _ => false
    else
      -- `default: return !payload || 'string' == typeof payload`
      match payload with
      | .undef => true
      | .nullp => true
      | .str _ => true
      | .num n => n = 0
      | _ => false

/-- One entry of `g7.substructure[container]` (`{cardinality, type}`). -/
structure SubSpec where
  cardinality : Option String
  type : String
deriving DecidableEq, Repr

/-- The lookup tables `G7Structure.validate` consults: `g7.substructure`
(per container, the `Object.values` list of its tag-keyed specs, in key
order) and `g7.payload`. -/
structure VLookup where
  substructure : List (String × List SubSpec)
  payloadTable : List (String × PltDef)
deriving DecidableEq, Repr

/-- A typed structure.  `sub` is the flat ordered list of substructures
(see the section comment). -/
inductive G7Node where
  | mk (type : String) (payload : VPayload) (sub : List G7Node)

def G7Node.type : G7Node → String | .mk t _ _ => t

def G7Node.payload : G7Node → VPayload | .mk _ p _ => p

def G7Node.sub : G7Node → List G7Node | .mk _ _ s => s

/-- `this.sub.has(t)` through the flat model. -/
def subHas (sub : List G7Node) (t : String) : Bool := sub.any (fun c => c.type = t)

/-- `this.sub.get(t).length` through the flat model. -/
def subCount (sub : List G7Node) (t : String) : Nat :=
  (sub.filter (fun c => c.type = t)).length

/-- `v.cardinality?.[i]`. -/
def cardChar (c : Option String) (i : Nat) : Option Char :=
  c.bind (fun s => s.data.get? i)

/-- `this.#lookup.payload(uri)` with its `{type:"?"}` default. -/
def vPayloadDef (vlk : VLookup) (uri : String) : PltDef :=
  (lkAssoc vlk.payloadTable uri).getD ⟨some "?", none, none⟩

/-- `payload === undefined || payload?.length === 0 || payload?.isEmpty?.()`
(`null?.length` short-circuits to `undefined`; numbers, times, dates, enums
and pointers have neither a `length` nor an `isEmpty`). -/
def payloadEmptyish (p : VPayload) : Bool :=
  match p with
  | .undef => true
  | .str s => s = ""
  | .listText l => l.isEmpty
  | .listEnum l => l.isEmpty
  | .age a => ageIsEmpty a
  | .datev v => dvIsEmpty v
  | _ => false

def pltDescTy (plt : PltDef) : String :=
  match plt.ptype with
  | some s => if s ≠ "" then s else "null"
  | none => "null"

def pltDescTo (plt : PltDef) : String :=
  match plt.toType with
  | some s => if s ≠ "" then s else pltDescTy plt
  | none => pltDescTy plt

/-- `plt.set || plt.to || plt.type` (JS `||`: empty strings and `null` are
falsy; if all three are falsy the template renders `null`). -/
def pltDesc (plt : PltDef) : String :=
  match plt.set with
  | some s => if s ≠ "" then s else pltDescTo plt
  | none => pltDescTo plt

/-- `this.payload?.type || this.payload || "an empty payload"`:
`?.type` is defined for structures (pointer targets) and `G7DateValue`s
(whose parsed `type` is always a nonempty string); otherwise the payload
itself is stringified, falling back to `"an empty payload"` when falsy. -/
def payloadDesc (dlk : G7Lookups) (p : VPayload) : String :=
  match p with
  | .undef => "an empty payload"
  | .nullp => "an empty payload"
  | .ptr t => t
  | .datev v => v.type
  | .str s => if s = "" then "an empty payload" else s
  | .num n => if n = 0 then "an empty payload" else jsIntRepr n
  | .age a => if ageToString a = "" then "an empty payload" else ageToString a
  | .time t => timeToString t
  | .date d => dateToString dlk d false
  | .enumv u => lkTag dlk u false
  | .listText l =>
    let s := String.intercalate ", " l
    if s = "" then "an empty payload" else s
  | .listEnum l =>
    let s := String.intercalate ", " (l.map (fun u => lkTag dlk u false))
    if s = "" then "an empty payload" else s

/-- The outcome of `validate()`: messages sent to the two sinks during the
call and the returned error count; `count = none` models an uncaught
exception escaping `validate()` (nothing more runs, but messages already
sent to the sinks remain). -/
structure VOut where
  errs : List String
  warns : List String
  count : Option Nat
deriving DecidableEq, Repr

/-- The messages one schema entry `v` contributes in the cardinality pass:
`if (v.cardinality?.[1] == '1' && !this.sub.has(v.type)) err(...)`, then the
at-most-one check (the pass's `forEach` emits, per entry, the missing-check
message before the duplicate-check message, so the pass's output is the
per-entry concatenation in entry order). -/
def cardSpecMsgs (ty : String) (sub : List G7Node) (v : SubSpec) : List String :=
  (if cardChar v.cardinality 1 = some '1' ∧ ¬(subHas sub v.type = true) then
    ["Missing substructure: " ++ ty ++ " requires a " ++ v.type]
  else [])
  ++ (if cardChar v.cardinality 3 = some '1' ∧ subHas sub v.type = true
      ∧ subCount sub v.type > 1 then
    ["Duplicate substructures: " ++ ty ++ " may have at most one " ++ v.type]
  else [])

/-- The cardinality pass (`if (this.type in this.#lookup.g7.substructure)`
guarding a `forEach` over `Object.values` of the entry). -/
def cardinalityMsgs (vlk : VLookup) (ty : String) (sub : List G7Node) : List String :=
  match lkAssoc vlk.substructure ty with
  | none => []
  | some specs => specs.flatMap (cardSpecMsgs ty sub)

/-- The empty-structure check. -/
def emptyMsgs (ty : String) (payload : VPayload) (sub : List G7Node) : List String :=
  if sub.isEmpty ∧ payloadEmptyish payload = true then
    ["Empty structure: " ++ ty ++ " with no substructure and no payload"]
  else []

/-- The payload check (`if (!checkDatatype(...)) err(...)`). -/
def payloadMsgs (vlk : VLookup) (dlk : G7Lookups) (ty : String) (payload : VPayload) :
    List String :=
  if ¬(checkDatatype payload (vPayloadDef vlk ty) = true) then
    ["Invalid payload: " ++ ty ++ " requires a " ++ pltDesc (vPayloadDef vlk ty)
      ++ ", not " ++ payloadDesc dlk payload]
  else []

/-- All messages `validate()` emits for the structure itself, before
recursing, in emission order. -/
def ownValidateMsgs (vlk : VLookup) (dlk : G7Lookups) (ty : String)
    (payload : VPayload) (sub : List G7Node) : List String :=
  cardinalityMsgs vlk ty sub ++ emptyMsgs ty payload sub ++ payloadMsgs vlk dlk ty payload

mutual
/-- `G7Structure.validate` (concatenated src/g7lookups.js lines 606-638):
cardinality checks against the container's schema entry, the
empty-structure check, the payload check, the EXID deprecation check — the
last calls the undefined bare identifier `warn`, so reaching it raises a
ReferenceError — then recursion into substructures, summing the counts. -/
def validateNode (vlk : VLookup) (dlk : G7Lookups) : G7Node → VOut
  | .mk ty payload sub =>
    let ownErrs := ownValidateMsgs vlk dlk ty payload sub
    if ty = "https://gedcom.io/terms/v7/EXID"
        ∧ ¬(subHas sub "https://gedcom.io/terms/v7/EXID-TYPE" = true) then
      ⟨ownErrs, [], none⟩
    else
      let rest := validateList vlk dlk sub
      ⟨ownErrs ++ rest.errs, rest.warns, rest.count.map (fun n => ownErrs.length + n)⟩

/-- `this.sub.forEach(v => v.forEach(e => errors += e.validate()))` over the
flat substructure list, stopping at the first child whose validation
raises. -/
def validateList (vlk : VLookup) (dlk : G7Lookups) : List G7Node → VOut
  | [] => ⟨[], [], some 0⟩
  | c :: cs =>
    let r := validateNode vlk dlk c
    match r.count with
    | none => ⟨r.errs, r.warns, none⟩
    | some n =>
      let r2 := validateList vlk dlk cs
      ⟨r.errs ++ r2.errs, r.warns ++ r2.warns, r2.count.map (fun m => n + m)⟩
end

/-! ## `G7Dataset.fromString` (concatenated src/g7lookups.js lines 920-923;
the same text recurs in src/g7structure.js lines 116-119 and
src/simpleValidator.js lines 635-638):

    static fromString(str, lookup) {
      const src = GEDCStruct.fromString(src, g7ConfGEDC, lookup.err)
      return G7Dataset.fromGEDC(src, lookup)
    }

The initializer of `const src` reads `src` itself while it is still in its
temporal dead zone, so evaluating the first statement throws
`ReferenceError: Cannot access 'src' before initialization` for every
`str` and every lookup; neither `GEDCStruct.fromString` nor `fromGEDC` is
ever entered, and no sink is called.  The embedding therefore returns that
exception unconditionally. -/

def g7DatasetFromString (str : String) (lookup : G7Lookups) : Except String Unit :=
  .error "ReferenceError: Cannot access 'src' before initialization"

/-- The context-shape errors of a `CONT`/`CONC` line (the loop's local
`errs` value, an abbreviation used by the statement of claim C4). -/
def contConcCtxErrs (st : ParseState) (ln : RawLine) (top : Frame) : List String :=
  if top.ptr.isSome then
    st.errs ++ [String.mk (natToDigits (st.line + 1)) ++ ": " ++ ln.tag
      ++ " cannot follow pointer"]
  else if ¬top.children.isEmpty then
    st.errs ++ [String.mk (natToDigits (st.line + 1)) ++ ": " ++ ln.tag
      ++ " cannot follow substructure"]
  else st.errs

mutual
/-- Structure size, the induction measure for `validate` lemmas. -/
def G7Node.size : G7Node → Nat
  | .mk _ _ sub => 1 + sizeNodes sub
def sizeNodes : List G7Node → Nat
  | [] => 0
  | c :: cs => G7Node.size c + sizeNodes cs
end

/-- A registry fragment for the claim-C7 witness: `record-INDI` requires
exactly one `NAME` substructure (cardinality `{1:1}`). -/
def vlkC7 : VLookup :=
  ⟨[("https://gedcom.io/terms/v7/record-INDI",
     [⟨some "{1:1}", "https://gedcom.io/terms/v7/NAME"⟩])], []⟩

/-! ## Theorems -/

theorem digitsToNatAux_cons (acc : Nat) (c : Char) (cs : List Char) :
    digitsToNatAux acc (c :: cs) = digitsToNatAux (acc * 10 + (c.toNat - 48)) cs := rfl

theorem digitsToNatAux_nil (acc : Nat) : digitsToNatAux acc [] = acc := rfl

theorem digitsToNatAux_append (acc : Nat) (xs ys : List Char) :
    digitsToNatAux acc (xs ++ ys) = digitsToNatAux (digitsToNatAux acc xs) ys := by
  induction xs generalizing acc with
  | nil => rfl
  | cons c cs ih => rw [List.cons_append, digitsToNatAux_cons, digitsToNatAux_cons, ih]

theorem digitChar_toNat (n : Nat) (h : n < 10) : (Nat.digitChar n).toNat - 48 = n := by
  interval_cases n <;> decide

theorem digitChar_isDigit (n : Nat) (h : n < 10) : (Nat.digitChar n).isDigit = true := by
  interval_cases n <;> decide

theorem natToDigitsAux_succ (f n : Nat) :
    natToDigitsAux (f + 1) n =
      if n < 10 then [Nat.digitChar n]
      else natToDigitsAux f (n / 10) ++ [Nat.digitChar (n % 10)] := by
  rw [natToDigitsAux]

/-- The fuel given by `natToDigits` is always sufficient: more fuel gives
the same digits. -/
theorem natToDigitsAux_fuel (f : Nat) (n : Nat) (hf : n < f) :
    natToDigitsAux f n = natToDigits n := by
  induction n using Nat.strong_induction_on generalizing f with
  | _ n ih =>
    cases f with
    | zero => omega
    | succ f =>
      rw [natToDigits, natToDigitsAux_succ, natToDigitsAux_succ]
      by_cases h : n < 10
      · simp [h]
      · simp only [h, if_false]
        have hd : n / 10 < n := Nat.div_lt_self (by omega) (by omega)
        rw [ih (n / 10) hd f (by omega), ih (n / 10) hd n (by omega)]

theorem natToDigits_unfold (n : Nat) :
    natToDigits n =
      if n < 10 then [Nat.digitChar n]
      else natToDigits (n / 10) ++ [Nat.digitChar (n % 10)] := by
  rw [natToDigits, natToDigitsAux_succ]
  by_cases h : n < 10
  · simp [h]
  · simp only [h, if_false]
    have hd : n / 10 < n := Nat.div_lt_self (by omega) (by omega)
    rw [natToDigitsAux_fuel n (n / 10) hd]

theorem digitsToNatAux_natToDigits (acc n : Nat) :
    digitsToNatAux acc (natToDigits n) = acc * 10 ^ (natToDigits n).length + n := by
  induction n using Nat.strong_induction_on generalizing acc with
  | _ n ih =>
    by_cases h : n < 10
    · rw [natToDigits_unfold]
      simp only [h, if_true]
      rw [digitsToNatAux_cons, digitsToNatAux_nil, digitChar_toNat n h]
      simp
    · conv_lhs => rw [natToDigits_unfold]
      conv_rhs => rw [natToDigits_unfold]
      simp only [h, if_false]
      rw [digitsToNatAux_append]
      have hd : n / 10 < n := Nat.div_lt_self (by omega) (by omega)
      rw [ih (n / 10) hd acc, digitsToNatAux_cons, digitsToNatAux_nil,
        digitChar_toNat (n % 10) (Nat.mod_lt n (by omega))]
      have hlen : (natToDigits (n / 10) ++ [Nat.digitChar (n % 10)]).length
          = (natToDigits (n / 10)).length + 1 := by simp
      rw [hlen, pow_succ]
      calc (acc * 10 ^ (natToDigits (n / 10)).length + n / 10) * 10 + n % 10
          = acc * (10 ^ (natToDigits (n / 10)).length * 10) + (10 * (n / 10) + n % 10) := by
            ring
        _ = acc * (10 ^ (natToDigits (n / 10)).length * 10) + n := by
            rw [Nat.div_add_mod]

theorem digitsToNat_natToDigits (n : Nat) : digitsToNat (natToDigits n) = n := by
  simpa [digitsToNat] using digitsToNatAux_natToDigits 0 n

theorem natToDigits_all_digit (n : Nat) :
    ∀ c ∈ natToDigits n, c.isDigit = true := by
  induction n using Nat.strong_induction_on with
  | _ n ih =>
    intro c hc
    by_cases h : n < 10
    · rw [natToDigits_unfold] at hc
      simp [h] at hc
      subst hc
      exact digitChar_isDigit n h
    · rw [natToDigits_unfold] at hc
      simp only [h, if_false, List.mem_append, List.mem_singleton] at hc
      rcases hc with hc | hc
      · exact ih (n / 10) (Nat.div_lt_self (by omega) (by omega)) c hc
      · subst hc
        exact digitChar_isDigit (n % 10) (Nat.mod_lt n (by omega))

theorem natToDigits_ne_nil (n : Nat) : natToDigits n ≠ [] := by
  rw [natToDigits_unfold]
  split <;> simp

theorem takeWhile_append_all {p : Char → Bool} {xs ys : List Char}
    (hx : ∀ c ∈ xs, p c = true) (hy : ∀ h : ys ≠ [], p (ys.head h) = false) :
    (xs ++ ys).takeWhile p = xs ∧ (xs ++ ys).dropWhile p = ys := by
  induction xs with
  | nil =>
    simp only [List.nil_append]
    cases ys with
    | nil => simp
    | cons y ys =>
      have := hy (by simp)
      simp only [List.head_cons] at this
      simp [List.takeWhile, List.dropWhile, this]
  | cons x xs ih =>
    have hx0 : p x = true := hx x (by simp)
    have ih2 := ih (fun c hc => hx c (by simp [hc]))
    simp [List.takeWhile, List.dropWhile, hx0, ih2.1, ih2.2]

theorem scanDigits_digits (n : Nat) (rest : List Char)
    (h : ∀ hr : rest ≠ [], ((rest.head hr).isDigit : Bool) = false) :
    scanDigits (natToDigits n ++ rest) = some (n, rest) := by
  have hall := natToDigits_all_digit n
  have htw := takeWhile_append_all hall h
  rw [scanDigits]
  simp only [htw.1, htw.2]
  have hne := natToDigits_ne_nil n
  simp [List.isEmpty_iff, hne, digitsToNat_natToDigits]

/-! Lemmas describing the age scanner on printed output. -/

theorem isDigit_ne {c x : Char} (hc : c.isDigit = true) (hx : x.isDigit = false) :
    c ≠ x := by
  intro h
  rw [h] at hc
  rw [hc] at hx
  exact absurd hx (by simp)

theorem scanMod_digits (n : Nat) (rest : List Char) :
    scanMod (natToDigits n ++ rest) = (none, natToDigits n ++ rest) := by
  obtain ⟨c, cs, hcc⟩ := List.exists_cons_of_ne_nil (natToDigits_ne_nil n)
  have hc : c.isDigit = true := by
    apply natToDigits_all_digit n
    rw [hcc]
    simp
  rw [hcc, List.cons_append, scanMod]
  have h1 : c ≠ '<' := isDigit_ne hc (by decide)
  have h2 : c ≠ '>' := isDigit_ne hc (by decide)
  simp [h1, h2]

theorem ageGroup_hit_mid (suffix : Char) (hs : suffix.isDigit = false)
    (n : Nat) (rest : List Char) :
    ageGroup suffix true (natToDigits n ++ suffix :: ' ' :: rest) = (some n, rest) := by
  rw [ageGroup, scanDigits_digits n (suffix :: ' ' :: rest) (by intro hr; simpa using hs)]
  simp

theorem ageGroup_hit_end (suffix : Char) (hs : suffix.isDigit = false) (n : Nat) :
    ageGroup suffix true (natToDigits n ++ [suffix]) = (some n, []) := by
  rw [ageGroup, scanDigits_digits n [suffix] (by intro hr; simpa using hs)]
  simp

theorem ageGroup_hit_nosp (suffix : Char) (hs : suffix.isDigit = false)
    (n : Nat) (rest : List Char) :
    ageGroup suffix false (natToDigits n ++ suffix :: rest) = (some n, rest) := by
  rw [ageGroup, scanDigits_digits n (suffix :: rest) (by intro hr; simpa using hs)]
  simp

theorem ageGroup_nil (suffix : Char) (b : Bool) :
    ageGroup suffix b [] = (none, []) := rfl

theorem ageGroup_skip (suffix s2 : Char) (b : Bool) (h2 : s2.isDigit = false)
    (hne : s2 ≠ suffix) (n : Nat) (rest : List Char) :
    ageGroup suffix b (natToDigits n ++ s2 :: rest)
      = (none, natToDigits n ++ s2 :: rest) := by
  rw [ageGroup, scanDigits_digits n (s2 :: rest) (by intro hr; simpa using h2)]
  simp [hne]

theorem dropWhile_append_of_ne {p : Char → Bool} {l1 l2 : List Char}
    (h : l1.dropWhile p ≠ []) :
    (l1 ++ l2).dropWhile p = l1.dropWhile p ++ l2 := by
  induction l1 with
  | nil => exact absurd rfl h
  | cons x xs ih =>
    by_cases hx : p x = true
    · rw [List.cons_append, List.dropWhile_cons_of_pos hx,
        List.dropWhile_cons_of_pos hx]
      apply ih
      rw [List.dropWhile_cons_of_pos hx] at h
      exact h
    · have hx2 : p x = false := by simpa using hx
      rw [List.cons_append, List.dropWhile_cons_of_neg (by simp [hx2]),
        List.dropWhile_cons_of_neg (by simp [hx2]), List.cons_append]

theorem trim_append_of_ne (xs ys : List Char) (c : Char) (hc : c ∈ ys) (hcs : c ≠ ' ') :
    trimTrailingSpaces (xs ++ ys) = xs ++ trimTrailingSpaces ys := by
  rw [trimTrailingSpaces, trimTrailingSpaces, List.reverse_append]
  have hne : ys.reverse.dropWhile (· = ' ') ≠ [] := by
    intro h
    have hall : ∀ a ∈ ys.reverse, a = ' ' := by
      intro a ha
      have := List.dropWhile_eq_nil_iff.mp h a ha
      simpa using this
    exact hcs (hall c (by simpa using hc))
  rw [dropWhile_append_of_ne hne, List.reverse_append]
  simp

theorem trim_digits_letter (n : Nat) (c : Char) (hc : ¬(c = ' ')) :
    trimTrailingSpaces (natToDigits n ++ [c]) = natToDigits n ++ [c] := by
  rw [trimTrailingSpaces, List.reverse_append]
  simp only [List.reverse_singleton, List.singleton_append]
  rw [List.dropWhile_cons_of_neg (by simpa using hc)]
  simp

theorem trim_digits_letter_space (n : Nat) (c : Char) (hc : ¬(c = ' ')) :
    trimTrailingSpaces (natToDigits n ++ [c, ' ']) = natToDigits n ++ [c] := by
  rw [trimTrailingSpaces, List.reverse_append]
  have hr : ([c, ' '] : List Char).reverse = [' ', c] := rfl
  rw [hr]
  simp only [List.cons_append]
  rw [List.dropWhile_cons_of_pos (by simp), List.dropWhile_cons_of_neg (by simpa using hc)]
  simp

theorem ageChunk_some_sp (s : Char) (n : Nat) :
    ageChunk s (some n) true = natToDigits n ++ [s, ' '] := rfl

theorem ageChunk_some_nosp (s : Char) (n : Nat) :
    ageChunk s (some n) false = natToDigits n ++ [s] := rfl

theorem ageChunk_none (s : Char) (b : Bool) : ageChunk s none b = [] := rfl

set_option maxHeartbeats 1600000 in
/-- Core of the age round-trip: scanning the trimmed rendering of present
components recovers exactly those components; the rendering starts with a
digit (so the modifier scan is the identity) and is nonempty. -/
theorem ageChunks_facts (y m w d : Option Nat)
    (hne : ¬(y = none ∧ m = none ∧ w = none ∧ d = none)) :
    ageScanComps (trimTrailingSpaces
        (ageChunk 'y' y true ++ ageChunk 'm' m true
          ++ ageChunk 'w' w true ++ ageChunk 'd' d false)) = some (y, m, w, d)
    ∧ scanMod (trimTrailingSpaces
        (ageChunk 'y' y true ++ ageChunk 'm' m true
          ++ ageChunk 'w' w true ++ ageChunk 'd' d false))
      = (none, trimTrailingSpaces
        (ageChunk 'y' y true ++ ageChunk 'm' m true
          ++ ageChunk 'w' w true ++ ageChunk 'd' d false))
    ∧ trimTrailingSpaces
        (ageChunk 'y' y true ++ ageChunk 'm' m true
          ++ ageChunk 'w' w true ++ ageChunk 'd' d false) ≠ [] := by
  rcases y with _ | ny <;> rcases m with _ | nm <;> rcases w with _ | nw <;>
    rcases d with _ | nd
  case none.none.none.none => exact absurd ⟨rfl, rfl, rfl, rfl⟩ hne
  all_goals
    simp only [ageChunk_some_sp, ageChunk_some_nosp, ageChunk_none,
      List.append_nil]
  all_goals
    first
      | rw [trim_append_of_ne _ _ 'd' (by simp) (by decide),
          trim_digits_letter _ 'd' (by decide)]
      | rw [trim_append_of_ne _ _ 'w' (by simp) (by decide),
          trim_digits_letter_space _ 'w' (by decide)]
      | rw [trim_append_of_ne _ _ 'm' (by simp) (by decide),
          trim_digits_letter_space _ 'm' (by decide)]
      | rw [trim_digits_letter _ 'd' (by decide)]
      | rw [trim_digits_letter_space _ 'w' (by decide)]
      | rw [trim_digits_letter_space _ 'm' (by decide)]
      | rw [trim_digits_letter_space _ 'y' (by decide)]
  all_goals
    try simp only [List.nil_append, List.append_assoc, List.cons_append,
      List.singleton_append]
  all_goals refine ⟨?_, ?_, ?_⟩
  all_goals
    first
      | exact scanMod_digits _ _
      | (simp +decide only [ageScanComps, List.append_assoc, List.cons_append,
          List.singleton_append, List.nil_append, List.append_nil,
          ageGroup_hit_mid, ageGroup_hit_end, ageGroup_hit_nosp, ageGroup_nil,
          ageGroup_skip, List.isEmpty_nil]
         try simp
         done)
      | (simp [natToDigits_ne_nil]
         done)

theorem truthyNat_eq {o : Option Nat} (h : o ≠ some 0) : truthyNat o = o := by
  cases o with
  | none => rfl
  | some n =>
    rw [truthyNat]
    have : n ≠ 0 := fun h0 => h (by rw [h0])
    simp [this]

theorem mk_ne_empty {l : List Char} (h : l ≠ []) : String.mk l ≠ "" := by
  intro he
  exact h (by simpa using congrArg String.data he)

theorem trim_ne_nil_nonspace {l : List Char} (h : trimTrailingSpaces l ≠ []) :
    ∃ c ∈ l, ¬(c = ' ') := by
  by_contra hall
  push_neg at hall
  apply h
  rw [trimTrailingSpaces, List.dropWhile_eq_nil_iff.mpr, List.reverse_nil]
  intro a ha
  simp [hall a (by simpa using ha)]

theorem scanMod_lt (cs : List Char) : scanMod ('<' :: cs) = (some '<', cs) := by
  rw [scanMod]
  simp

theorem scanMod_gt (cs : List Char) : scanMod ('>' :: cs) = (some '>', cs) := by
  rw [scanMod]
  simp

/-- Round trip on age values of the shape the parser produces, when every
defined component is nonzero. -/
theorem ageRound_value (mod : Option Char) (y m w d : Option Nat)
    (hmod : mod = none ∨ mod = some '<' ∨ mod = some '>')
    (hne : ¬(y = none ∧ m = none ∧ w = none ∧ d = none))
    (hy : y ≠ some 0) (hm : m ≠ some 0) (hw : w ≠ some 0) (hd : d ≠ some 0) :
    (ageFromString (ageToString ⟨mod, y, m, w, d⟩)).1 = ⟨mod, y, m, w, d⟩ := by
  obtain ⟨hscan, hmscan, hnil⟩ := ageChunks_facts y m w d hne
  rw [ageToString]
  simp only [truthyNat_eq hy, truthyNat_eq hm, truthyNat_eq hw, truthyNat_eq hd]
  have hchar : ∃ c ∈ (ageChunk 'y' y true ++ ageChunk 'm' m true
      ++ ageChunk 'w' w true ++ ageChunk 'd' d false), ¬(c = ' ') :=
    trim_ne_nil_nonspace hnil
  obtain ⟨c, hcmem, hcne⟩ := hchar
  rcases hmod with hmod | hmod | hmod <;> subst hmod
  · simp only [modChars, List.nil_append]
    rw [ageFromString, if_neg (mk_ne_empty hnil)]
    simp only [String.data]
    rw [hmscan, hscan]
    simp [hne]
  · simp only [modChars]
    rw [trim_append_of_ne _ _ c hcmem hcne]
    rw [ageFromString, if_neg (mk_ne_empty (by simp))]
    simp only [String.data, List.singleton_append]
    rw [scanMod_lt, hscan]
    simp [hne]
  · simp only [modChars]
    rw [trim_append_of_ne _ _ c hcmem hcne]
    rw [ageFromString, if_neg (mk_ne_empty (by simp))]
    simp only [String.data, List.singleton_append]
    rw [scanMod_gt, hscan]
    simp [hne]

theorem scanMod_fst (cs : List Char) :
    (scanMod cs).1 = none ∨ (scanMod cs).1 = some '<' ∨ (scanMod cs).1 = some '>' := by
  rw [scanMod.eq_def]
  cases cs with
  | nil => simp
  | cons c rest =>
    by_cases h1 : c = '<'
    · simp [h1]
    · by_cases h2 : c = '>' <;> simp [h1, h2]

/-- Every result of the age parser is the all-undefined age, the sentinel
`{mod:'>', years:0}`, or a value with a legal modifier and at least one
defined component. -/
theorem ageFromString_shape (s : String) :
    (ageFromString s).1 = ⟨none, none, none, none, none⟩
    ∨ (ageFromString s).1 = ⟨some '>', some 0, none, none, none⟩
    ∨ ∃ mod y m w d, (mod = none ∨ mod = some '<' ∨ mod = some '>')
        ∧ ¬(y = none ∧ m = none ∧ w = none ∧ d = none)
        ∧ (ageFromString s).1 = ⟨mod, y, m, w, d⟩ := by
  rw [ageFromString]
  by_cases he : s = ""
  · simp [he]
  · simp only [he, if_false]
    have hmod := scanMod_fst s.data
    rcases hp : scanMod s.data with ⟨mod0, cs0⟩
    rw [hp] at hmod
    simp only at hmod
    rcases hq : ageScanComps cs0 with _ | ⟨y, m, w, d⟩
    · simp [hq]
    · by_cases hz : y = none ∧ m = none ∧ w = none ∧ d = none
      · simp [hq, hz]
      · right
        right
        refine ⟨mod0, y, m, w, d, hmod, hz, ?_⟩
        simp [hq, hz]

theorem ageRound_of_parse (s : String) (h : ageNoZero (ageFromString s).1) :
    (ageFromString (ageToString (ageFromString s).1)).1 = (ageFromString s).1 := by
  rcases ageFromString_shape s with hs | hs | ⟨mod, y, m, w, d, hmod, hne, hs⟩
  · rw [hs]
    rfl
  · rw [hs] at h
    exact absurd rfl h.1
  · rw [hs] at h ⊢
    exact ageRound_value mod y m w d hmod hne h.1 h.2.1 h.2.2.1 h.2.2.2

theorem charVal_bounds_of_isDigit {c : Char} (h : c.isDigit = true) :
    charVal c ≤ 9 ∧ 48 ≤ c.toNat := by
  simp only [Char.isDigit, decide_eq_true_eq, Bool.and_eq_true] at h
  obtain ⟨h1, h2⟩ := h
  have h1n : 48 ≤ c.val.toNat := h1
  have h2n : c.val.toNat ≤ 57 := h2
  have he : c.toNat = c.val.toNat := rfl
  unfold charVal
  omega

theorem charVal_le_of_le5 {c : Char} (h1 : '0' ≤ c) (h2 : c ≤ '5') :
    charVal c ≤ 5 := by
  have h1n : ('0' : Char).val.toNat ≤ c.val.toNat := h1
  have h2n : c.val.toNat ≤ ('5' : Char).val.toNat := h2
  have he : c.toNat = c.val.toNat := rfl
  have e0 : ('0' : Char).val.toNat = 48 := rfl
  have e5 : ('5' : Char).val.toNat = 53 := rfl
  unfold charVal
  omega

theorem scanHour_lt (cs : List Char) (h : Nat) (r : List Char)
    (hs : scanHour cs = some (h, r)) : h < 24 := by
  rw [scanHour.eq_def] at hs
  match cs with
  | [] => exact absurd hs (by simp)
  | [c1] =>
    simp only at hs
    by_cases hd : c1.isDigit
    · simp only [hd, if_true] at hs
      obtain ⟨hb, _⟩ := charVal_bounds_of_isDigit hd
      cases hs
      omega
    · simp [hd] at hs
  | c1 :: c2 :: rest =>
    simp only at hs
    split at hs
    · rename_i hcond
      obtain ⟨hc1, hc2⟩ := hcond
      obtain ⟨hb2, _⟩ := charVal_bounds_of_isDigit hc2
      have hb1 : charVal c1 ≤ 1 := by
        rcases hc1 with h1 | h1 <;> rw [h1] <;> decide
      cases hs
      omega
    · split at hs
      · rename_i hcond
        obtain ⟨hc1, _⟩ := hcond
        obtain ⟨hb1, _⟩ := charVal_bounds_of_isDigit hc1
        cases hs
        omega
      · split at hs
        · rename_i hcond
          obtain ⟨_, hc2a, hc2b⟩ := hcond
          have hb2 : charVal c2 ≤ 5 := by
            apply charVal_le_of_le5 hc2a
            calc c2 ≤ '3' := hc2b
              _ ≤ '5' := by decide
          have hb2b : charVal c2 ≤ 3 := by
            have h2n : c2.val.toNat ≤ ('3' : Char).val.toNat := hc2b
            have e3 : ('3' : Char).val.toNat = 51 := rfl
            have he : c2.toNat = c2.val.toNat := rfl
            unfold charVal
            omega
          cases hs
          omega
        · exact absurd hs (by simp)

theorem scanSixty_lt (cs : List Char) (n : Nat) (r : List Char)
    (hs : scanSixty cs = some (n, r)) : n < 60 := by
  rw [scanSixty.eq_def] at hs
  match cs with
  | [] => exact absurd hs (by simp)
  | [c1] => exact absurd hs (by simp)
  | c1 :: c2 :: rest =>
    simp only at hs
    split at hs
    · rename_i hcond
      obtain ⟨⟨ha, hb⟩, hc⟩ := hcond
      have h1 : charVal c1 ≤ 5 := charVal_le_of_le5 ha hb
      obtain ⟨h2, _⟩ := charVal_bounds_of_isDigit hc
      cases hs
      omega
    · exact absurd hs (by simp)

theorem dropWhile_self (p : Char → Bool) (l : List Char) :
    List.dropWhile p (List.dropWhile p l) = List.dropWhile p l := by
  induction l with
  | nil => rfl
  | cons c cs ih =>
    by_cases h : p c = true
    · rw [List.dropWhile_cons_of_pos h, ih]
    · rw [List.dropWhile_cons_of_neg (by simp [h]),
        List.dropWhile_cons_of_neg (by simp [h])]

theorem dropTrailingZeros_idem (l : List Char) :
    dropTrailingZeros (dropTrailingZeros l) = dropTrailingZeros l := by
  unfold dropTrailingZeros
  rw [List.reverse_reverse, dropWhile_self]

theorem dropTrailingZeros_subset {c : Char} {l : List Char}
    (h : c ∈ dropTrailingZeros l) : c ∈ l := by
  unfold dropTrailingZeros at h
  rw [List.mem_reverse] at h
  have := (List.dropWhile_sublist (l := l.reverse) (p := (· = '0'))).subset h
  simpa using this

theorem scanFrac_shape (cs : List Char) :
    (∀ c ∈ (scanFrac cs).1, c.isDigit = true) := by
  rw [scanFrac.eq_def]
  split
  · simp only
    split
    · simp
    · intro x hx
      exact List.mem_takeWhile_imp hx
  · simp

theorem timeFromString_wf (s : String) : timeWf (timeFromString s).1 := by
  have hfail : timeWf (⟨0, 0, none, none⟩ : G7Time) :=
    ⟨by simp [timeWf], by simp, by simp, Or.inl rfl⟩
  rw [timeFromString]
  split
  · exact hfail
  · rename_i h cs1 hscanH
    have hh : h < 24 := scanHour_lt _ _ _ hscanH
    split
    · rename_i cs2 heq1
      split
      · exact hfail
      · rename_i mi cs3 hscanM
        have hm : mi < 60 := scanSixty_lt _ _ _ hscanM
        split
        · rename_i cs4 heq2
          split
          · exact hfail
          · rename_i sw cs5 hscanS
            have hsw : sw < 60 := scanSixty_lt _ _ _ hscanS
            have hfr := scanFrac_shape cs5
            split
            · rename_i fr cs6 heq3
              have hfr2 : ∀ c ∈ fr, c.isDigit = true := by
                intro c hc
                apply hfr
                rw [heq3]
                exact hc
              split
              · refine ⟨hh, hm, ?_, Or.inl rfl⟩
                intro sw2 fr2 hsf
                simp only [Option.some.injEq, Prod.mk.injEq] at hsf
                obtain ⟨h1, h2⟩ := hsf
                subst h1
                subst h2
                exact ⟨hsw, fun c hc => hfr2 c (dropTrailingZeros_subset hc),
                  dropTrailingZeros_idem fr⟩
              · refine ⟨hh, hm, ?_, Or.inr rfl⟩
                intro sw2 fr2 hsf
                simp only [Option.some.injEq, Prod.mk.injEq] at hsf
                obtain ⟨h1, h2⟩ := hsf
                subst h1
                subst h2
                exact ⟨hsw, fun c hc => hfr2 c (dropTrailingZeros_subset hc),
                  dropTrailingZeros_idem fr⟩
              · exact hfail
        · exact ⟨hh, hm, by simp, Or.inl rfl⟩
        · exact ⟨hh, hm, by simp, Or.inr rfl⟩
        · exact hfail
    · exact hfail

theorem padHundred_eq (n : Nat) (h : n < 100) :
    padHundred n = [Nat.digitChar (n / 10), Nat.digitChar (n % 10)] := by
  unfold padHundred
  rw [natToDigits_unfold]
  have h1 : ¬(100 + n < 10) := by omega
  simp only [h1, if_false]
  rw [natToDigits_unfold]
  have h2 : ¬((100 + n) / 10 < 10) := by omega
  simp only [h2, if_false]
  have e1 : (100 + n) / 10 / 10 = 1 := by omega
  have e2 : (100 + n) / 10 % 10 = n / 10 := by omega
  have e3 : (100 + n) % 10 = n % 10 := by omega
  rw [e1, e2, e3]
  rfl

theorem digitChar_le1 (k : Nat) (h : k ≤ 1) :
    Nat.digitChar k = '0' ∨ Nat.digitChar k = '1' := by
  interval_cases k
  · exact Or.inl rfl
  · exact Or.inr rfl

theorem digitChar_zero_to_three (k : Nat) (h : k ≤ 3) :
    '0' ≤ Nat.digitChar k ∧ Nat.digitChar k ≤ '3' := by
  interval_cases k <;> exact ⟨by decide, by decide⟩

theorem digitChar_zero_to_five (k : Nat) (h : k ≤ 5) :
    '0' ≤ Nat.digitChar k ∧ Nat.digitChar k ≤ '5' := by
  interval_cases k <;> exact ⟨by decide, by decide⟩

theorem digitChar_ne_colon (k : Nat) (h : k < 10) : Nat.digitChar k ≠ ':' := by
  interval_cases k <;> decide

theorem charVal_digitChar (k : Nat) (h : k < 10) : charVal (Nat.digitChar k) = k :=
  digitChar_toNat k h

theorem scanHour_pad (h : Nat) (hh : h < 24) (rest : List Char) :
    scanHour (padHundred h ++ ':' :: rest) = some (h, ':' :: rest) := by
  rw [padHundred_eq h (by omega)]
  rw [scanHour.eq_def]
  simp only [List.cons_append, List.nil_append]
  by_cases h20 : h < 20
  · have hc1 := digitChar_le1 (h / 10) (by omega)
    have hc2 := digitChar_isDigit (h % 10) (by omega)
    rw [if_pos ⟨hc1, hc2⟩]
    rw [charVal_digitChar (h / 10) (by omega), charVal_digitChar (h % 10) (by omega)]
    rw [Nat.div_add_mod]
  · have he : h / 10 = 2 := by omega
    rw [he]
    have hno1 : ¬((Nat.digitChar 2 = '0' ∨ Nat.digitChar 2 = '1')
        ∧ (Nat.digitChar (h % 10)).isDigit = true) := by
      intro hk
      rcases hk.1 with hk1 | hk1 <;> exact absurd hk1 (by decide)
    rw [if_neg hno1]
    have hno2 : ¬((Nat.digitChar 2).isDigit = true ∧ Nat.digitChar (h % 10) = ':') := by
      intro hk
      exact digitChar_ne_colon (h % 10) (by omega) hk.2
    rw [if_neg hno2]
    have hc3 := digitChar_zero_to_three (h % 10) (by omega)
    rw [if_pos ⟨by decide, hc3⟩]
    rw [charVal_digitChar (h % 10) (by omega)]
    have : 20 + h % 10 = h := by omega
    rw [this]

theorem scanSixty_pad (m : Nat) (hm : m < 60) (rest : List Char) :
    scanSixty (padHundred m ++ rest) = some (m, rest) := by
  rw [padHundred_eq m (by omega)]
  rw [scanSixty.eq_def]
  simp only [List.cons_append, List.nil_append]
  have hc1 := digitChar_zero_to_five (m / 10) (by omega)
  have hc2 := digitChar_isDigit (m % 10) (by omega)
  rw [if_pos ⟨hc1, hc2⟩]
  rw [charVal_digitChar (m / 10) (by omega), charVal_digitChar (m % 10) (by omega)]
  rw [Nat.div_add_mod]

theorem data_mk (l : List Char) : (String.mk l).data = l := rfl

theorem scanFrac_dot (fr rest : List Char) (hfr : ¬fr.isEmpty = true)
    (hd : ∀ c ∈ fr, c.isDigit = true)
    (hrest : ∀ hr : rest ≠ [], ((rest.head hr).isDigit : Bool) = false) :
    scanFrac ('.' :: (fr ++ rest)) = (fr, rest) := by
  have htw := takeWhile_append_all hd hrest
  rw [scanFrac]
  simp only [htw.1, htw.2]
  rw [if_neg hfr]

theorem scanSixty_pad_nil (m : Nat) (hm : m < 60) :
    scanSixty (padHundred m) = some (m, []) := by
  have := scanSixty_pad m hm []
  rwa [List.append_nil] at this

theorem scanFrac_dot_nil (fr : List Char) (hfr : ¬fr.isEmpty = true)
    (hd : ∀ c ∈ fr, c.isDigit = true) :
    scanFrac ('.' :: fr) = (fr, []) := by
  have := scanFrac_dot fr [] hfr hd (fun hr => absurd rfl hr)
  rwa [List.append_nil] at this

theorem timeRound_value (t : G7Time) (hwf : timeWf t) :
    timeFromString (timeToString t) = (t, []) := by
  obtain ⟨h, mi, sec, tz⟩ := t
  obtain ⟨hh, hm, hsec, htz⟩ := hwf
  simp only at hh hm hsec htz
  rw [timeToString]
  simp only
  rcases sec with _ | ⟨sw, fr⟩
  · rcases htz with htz | htz <;> rw [htz] <;>
      · rw [timeFromString]
        simp only [data_mk, List.append_nil, List.nil_append, List.append_assoc,
          List.cons_append, scanHour_pad h hh, scanSixty_pad mi hm,
          scanSixty_pad_nil mi hm]
  · obtain ⟨hsw, hdig, hdtz⟩ := hsec sw fr rfl
    by_cases hfre : fr.isEmpty = true
    · have hfr : fr = [] := by simpa [List.isEmpty_iff] using hfre
      subst hfr
      rcases htz with htz | htz <;> rw [htz] <;>
        · rw [timeFromString]
          simp only [data_mk, List.append_nil, List.nil_append, List.append_assoc,
            List.cons_append, List.isEmpty_nil, if_true, scanHour_pad h hh,
            scanSixty_pad mi hm, scanSixty_pad sw hsw, scanSixty_pad_nil sw hsw]
          simp [scanFrac, dropTrailingZeros]
    · have hz : ∀ hr : (['Z'] : List Char) ≠ [], (([ 'Z'] : List Char).head hr).isDigit = false := by
        intro hr
        simp
      have hnil : ∀ hr : ([] : List Char) ≠ [], (([] : List Char).head hr).isDigit = false := by
        intro hr
        exact absurd rfl hr
      rcases htz with htz | htz <;> rw [htz]
      · rw [timeFromString]
        simp only [data_mk, List.append_nil, List.nil_append, List.append_assoc,
          List.cons_append, hfre, if_false, Bool.false_eq_true, scanHour_pad h hh,
          scanSixty_pad mi hm, scanSixty_pad sw hsw, scanSixty_pad_nil sw hsw]
        rw [scanFrac_dot_nil fr hfre hdig]
        simp only [hdtz]
      · rw [timeFromString]
        simp only [data_mk, List.append_nil, List.nil_append, List.append_assoc,
          List.cons_append, hfre, if_false, Bool.false_eq_true, scanHour_pad h hh,
          scanSixty_pad mi hm, scanSixty_pad sw hsw, scanSixty_pad_nil sw hsw]
        rw [scanFrac_dot fr ['Z'] hfre hdig hz]
        simp only [hdtz]

theorem timeRound_of_parse (s : String) :
    timeFromString (timeToString (timeFromString s).1) = ((timeFromString s).1, []) :=
  timeRound_value _ (timeFromString_wf s)

/-! # Claim theorems -/

/-- Claim C10: `G7Age.toString` omits every component whose value is `0`,
even when that component is defined: replacing a defined `0`-valued years,
months, weeks or days field by `undefined` leaves the rendered string
unchanged; the age parsed from `"0y"` has `years = 0` defined yet
serializes to the empty string; and the invalid-age sentinel
`{mod:'>', years:0}` serializes to `">"` rather than `">0y"`. -/
theorem c10_age_toString_omits_zeros :
    (∀ a : G7Age, ageToString {a with years := some 0} = ageToString {a with years := none})
    ∧ (∀ a : G7Age, ageToString {a with months := some 0} = ageToString {a with months := none})
    ∧ (∀ a : G7Age, ageToString {a with weeks := some 0} = ageToString {a with weeks := none})
    ∧ (∀ a : G7Age, ageToString {a with days := some 0} = ageToString {a with days := none})
    ∧ (ageFromString "0y").1 = ⟨none, some 0, none, none, none⟩
    ∧ ageToString (ageFromString "0y").1 = ""
    ∧ ageToString ⟨some '>', some 0, none, none, none⟩ = ">" := by
  refine ⟨fun a => rfl, fun a => rfl, fun a => rfl, fun a => rfl, by decide, by decide, by decide⟩

/-- Claim C9: contrary to the claim, `G7Dataset.fromString(str, lookup)`
never parses its `str` argument: its first statement
`const src = GEDCStruct.fromString(src, g7ConfGEDC, lookup.err)` reads
`src` inside its own initializer (a temporal-dead-zone access), so the
call throws a ReferenceError for every input string and every lookup
instead of returning the typed dataset of `str`'s contents. -/
theorem c9_dataset_fromString_throws :
    ∀ (str : String) (lookup : G7Lookups),
      g7DatasetFromString str lookup
        = .error "ReferenceError: Cannot access 'src' before initialization" :=
  fun _ _ => rfl

/-- Claim C5: a string payload beginning with a literal `@@` is decoded by
dropping exactly one `@` (universally over the remainder of the payload),
so the encoded payloads `@#x` and `@@#x` both denote the text `@#x` and
`@@@#x` denotes `@@#x`; the final conjunct traces the decoding through the
parsing of a whole line. -/
theorem c5_double_at_decoded_once :
    (∀ rest : List Char,
      decodePayload (String.mk ('@' :: '@' :: rest)) = String.mk ('@' :: rest))
    ∧ decodePayload "@#x" = "@#x"
    ∧ decodePayload "@@#x" = "@#x"
    ∧ decodePayload "@@@#x" = "@@#x"
    ∧ (gedcFromLines g7ConfLen [⟨0, none, "NOTE", none, some "@@#x"⟩]).map
        (fun p => p.1.map RTree.payload)
        = some [.str "@#x"] := by
  refine ⟨?_, by decide, by decide, by decide, by decide⟩
  intro rest
  have hc : (String.mk ('@' :: '@' :: rest)).length > 1 ∧
      (String.mk ('@' :: '@' :: rest)).data.take 2 = ['@', '@'] := by
    refine ⟨?_, rfl⟩
    show ('@' :: '@' :: rest).length > 1
    simp
  rw [decodePayload, if_pos hc]
  rfl

/-- Claim C6: parsing against the `type-Date#period` payload type always
yields a `DateValue` whose type is `DatePeriod` or `empty`; whenever the
payload parses to any other type (`date`, `ABT`, `CAL`, `EST`,
`dateRange`), the result is downgraded to `empty` with both dates cleared
and `Expected DatePeriod, not <type>` is reported; the closing conjuncts
trace the spec's example payload `"ABT 1 JAN 2020"`. -/
theorem c6_period_downgrade :
    (∀ (lk : G7Lookups) (lg : Logs) (str : String),
        (g7PeriodFromString lk lg str).1.type = "DatePeriod"
          ∨ (g7PeriodFromString lk lg str).1.type = "empty")
    ∧ (∀ (lk : G7Lookups) (lg : Logs) (str : String),
        (dvFromString lk lg str).1.type ≠ "DatePeriod" →
        (dvFromString lk lg str).1.type ≠ "empty" →
        (g7PeriodFromString lk lg str).1 = ⟨"empty", none, none⟩
          ∧ (g7PeriodFromString lk lg str).2
              = errRaw (dvFromString lk lg str).2
                  ("Expected DatePeriod, not " ++ (dvFromString lk lg str).1.type))
    ∧ (g7PeriodFromString stdLookup Logs.empty "ABT 1 JAN 2020").1 = ⟨"empty", none, none⟩
    ∧ (g7PeriodFromString stdLookup Logs.empty "ABT 1 JAN 2020").2.errs
        = ["Expected DatePeriod, not ABT"] := by
  refine ⟨?_, ?_, by decide, by decide⟩
  · intro lk lg str
    rcases hdv : dvFromString lk lg str with ⟨ans, lg2⟩
    by_cases hty : ans.type ≠ "DatePeriod" ∧ ans.type ≠ "empty"
    · right
      simp only [g7PeriodFromString, hdv, if_pos hty]
    · rcases not_and_or.mp hty with h | h
      · left
        have h' := not_not.mp h
        simp only [g7PeriodFromString, hdv, hty, if_neg hty]
        exact h'
      · right
        have h' := not_not.mp h
        simp only [g7PeriodFromString, hdv, hty, if_neg hty]
        exact h'
  · intro lk lg str h1 h2
    rcases hdv : dvFromString lk lg str with ⟨ans, lg2⟩
    rw [hdv] at h1 h2
    have hty : ans.type ≠ "DatePeriod" ∧ ans.type ≠ "empty" := ⟨h1, h2⟩
    constructor
    · simp only [g7PeriodFromString, hdv, if_pos hty]
    · simp only [g7PeriodFromString, hdv, if_pos hty]

/-- Witness for claim C6's downgrade conjunct at the spec's example: the
payload `"ABT 1 JAN 2020"` parses to type `ABT` (neither `DatePeriod` nor
`empty`) and the `#period` wrapper downgrades it to `empty`. -/
theorem c6_period_downgrade_witness :
    (dvFromString stdLookup Logs.empty "ABT 1 JAN 2020").1.type ≠ "DatePeriod"
    ∧ (dvFromString stdLookup Logs.empty "ABT 1 JAN 2020").1.type ≠ "empty"
    ∧ (g7PeriodFromString stdLookup Logs.empty "ABT 1 JAN 2020").1
        = ⟨"empty", none, none⟩ :=
  ⟨by decide, by decide,
    (c6_period_downgrade.2.1 stdLookup Logs.empty "ABT 1 JAN 2020"
      (by decide) (by decide)).1⟩

/-- `stepLine` either leaves the xref-id table unchanged or prepends the
line's declared xref-id. -/
theorem stepLine_ids (cfg : GedcConf) (st : ParseState) (ln : RawLine)
    (st' : ParseState) (h : stepLine cfg st ln = some st') :
    st'.ids = st.ids ∨ ∃ i, ln.xrefId = some i ∧ st'.ids = (i, some i) :: st.ids := by
  rw [stepLine] at h
  by_cases h1 : ln.level > st.stack.length
  · rw [if_pos h1] at h
    injection h with h'
    subst h'
    left
    rfl
  · rw [if_neg h1] at h
    rcases hct : closeTo ln.level st.stack st.records with ⟨stack, recs⟩
    rw [hct] at h
    dsimp only at h
    by_cases h2 : ln.tag = "CONT" ∨ ln.tag = "CONC"
    · rw [if_pos h2] at h
      cases stack with
      | nil => cases h
      | cons top rest =>
        dsimp only at h
        by_cases h3 : ln.tag = "CONT"
        · rw [if_pos h3] at h
          injection h with h'
          subst h'
          left
          rfl
        · rw [if_neg h3] at h
          cases hl : cfg.len with
          | none =>
            rw [hl] at h
            rw [if_neg (by simp)] at h
            injection h with h'
            subst h'
            left
            rfl
          | some l =>
            rw [hl] at h
            by_cases h5 : l < 0
            · rw [if_pos (by simpa using h5)] at h
              injection h with h'
              subst h'
              left
              rfl
            · rw [if_neg (by simpa using h5)] at h
              injection h with h'
              subst h'
              left
              rfl
    · rw [if_neg h2] at h
      cases hx : ln.xrefId with
      | none =>
        rw [hx] at h
        injection h with h'
        subst h'
        left
        rfl
      | some i =>
        rw [hx] at h
        injection h with h'
        subst h'
        right
        exact ⟨i, rfl, rfl⟩

/-- Folding the loop body from a dead (`none`) accumulator stays dead. -/
theorem foldl_step_none (cfg : GedcConf) (lines : List RawLine) :
    lines.foldl
      (fun acc ln => match acc with | none => none | some s => stepLine cfg s ln)
      none = none := by
  induction lines with
  | nil => rfl
  | cons ln rest ih => simpa using ih

/-- The loop preserves `ids["VOID"] === null` as long as no line declares
the xref-id `VOID`. -/
theorem foldl_void_inv (cfg : GedcConf) (lines : List RawLine) :
    ∀ (st0 st1 : ParseState),
    lkAssoc st0.ids "VOID" = some none →
    (∀ ln ∈ lines, ln.xrefId ≠ some "VOID") →
    lines.foldl
      (fun acc ln => match acc with | none => none | some s => stepLine cfg s ln)
      (some st0) = some st1 →
    lkAssoc st1.ids "VOID" = some none := by
  induction lines with
  | nil =>
    intro st0 st1 h0 _ hf
    injection hf with hf'
    subst hf'
    exact h0
  | cons ln rest ih =>
    intro st0 st1 h0 hx hf
    simp only [List.foldl_cons] at hf
    cases hs : stepLine cfg st0 ln with
    | none =>
      rw [hs, foldl_step_none] at hf
      cases hf
    | some st0' =>
      rw [hs] at hf
      refine ih st0' st1 ?_ (fun l hl => hx l (List.mem_cons_of_mem _ hl)) hf
      rcases stepLine_ids cfg st0 ln st0' hs with he | ⟨i, hi, he⟩
      · rw [he]
        exact h0
      · have hiv : i ≠ "VOID" := by
          intro hiv
          exact hx ln (List.mem_cons_self _ _) (hiv ▸ hi)
        rw [he]
        unfold lkAssoc
        rw [List.find?_cons_of_neg]
        · exact h0
        · simp [hiv]

/-- Counterexample to claim C2 as stated: with the parser's preset
`{VOID: null}` table, a document that *declares* the xref-id `VOID`
(first line `0 @VOID@ SOUR`) shadows the preset, so a pointer `@VOID@`
(second line) resolves to a reference to that structure — not to the
null-pointer sentinel — and still emits no diagnostic. -/
theorem c2_void_shadowed_counterexample :
    (gedcFromLines g7ConfLen
        [⟨0, some "VOID", "SOUR", none, none⟩, ⟨0, none, "FAM", some "VOID", none⟩]).map
      (fun p => (p.1.map RTree.payload, p.2))
      = some ([.undef, .ref "VOID"], [])
    ∧ RPayload.ref "VOID" ≠ RPayload.nullPtr := by
  constructor
  · rfl
  · decide

/-- Claim C2 (amended): provided the table entry for `VOID` is still the
preset `null` — which `fromString` guarantees whenever no line declares
the xref-id `VOID`, the final conjunct — `fixPtrs` resolves the pointer
string `VOID` to the null-pointer sentinel without emitting any
diagnostic, and resolves every pointer string with no table entry to the
null-pointer sentinel while reporting `pointer to undefined xref_id @X@`. -/
theorem c2_fixptrs_resolution :
    (∀ (ids : List (String × Option String)) (pay : Option String),
      lkAssoc ids "VOID" = some none →
      fixPay ids (some "VOID") pay = (.nullPtr, []))
    ∧ (∀ (ids : List (String × Option String)) (s : String) (pay : Option String),
      lkAssoc ids s = none →
      fixPay ids (some s) pay
        = (.nullPtr, ["pointer to undefined xref_id @" ++ s ++ "@"]))
    ∧ (∀ (cfg : GedcConf) (lines : List RawLine) (st : ParseState),
      runLines cfg lines fromStringIdsInit = some st →
      (∀ ln ∈ lines, ln.xrefId ≠ some "VOID") →
      lkAssoc st.ids "VOID" = some none) := by
  refine ⟨?_, ?_, ?_⟩
  · intro ids pay hv
    rw [fixPay, hv]
  · intro ids s pay hm
    rw [fixPay, hm]
  · intro cfg lines st hrun hx
    rw [runLines] at hrun
    dsimp only at hrun
    cases hf : lines.foldl
        (fun acc ln => match acc with | none => none | some s => stepLine cfg s ln)
        (some ⟨[], [], fromStringIdsInit, [], 0⟩) with
    | none =>
      rw [hf] at hrun
      cases hrun
    | some stF =>
      rw [hf] at hrun
      dsimp only at hrun
      injection hrun with h'
      subst h'
      show lkAssoc stF.ids "VOID" = some none
      exact foldl_void_inv cfg lines ⟨[], [], fromStringIdsInit, [], 0⟩ stF rfl hx hf

/-- Witness for claim C2's amended statement: the preset table resolves
pointer `VOID` silently to the null pointer, an unknown pointer `X9` is
nulled and reported, and a one-line parse without a `VOID` declaration
keeps the preset entry. -/
theorem c2_fixptrs_resolution_witness :
    fixPay fromStringIdsInit (some "VOID") none = (.nullPtr, [])
    ∧ fixPay fromStringIdsInit (some "X9") none
        = (.nullPtr, ["pointer to undefined xref_id @X9@"])
    ∧ ∀ st, runLines g7ConfLen [⟨0, none, "FAM", some "VOID", none⟩] fromStringIdsInit
        = some st → lkAssoc st.ids "VOID" = some none := by
  refine ⟨c2_fixptrs_resolution.1 fromStringIdsInit none (by decide),
    c2_fixptrs_resolution.2.1 fromStringIdsInit "X9" none (by decide),
    fun st h => c2_fixptrs_resolution.2.2 g7ConfLen
      [⟨0, none, "FAM", some "VOID", none⟩] st h (by decide)⟩

/-- Claim C4: for a line whose tag is `CONT` or `CONC` with an enclosing
structure `top` on the stack, `CONT` appends `"\n" + payload` to `top`'s
string payload and `CONC` appends the payload with no separator; if `top`
already has a pointer payload (or, otherwise, any substructure) the error
`<line>: CONT/CONC cannot follow pointer/substructure` is reported
(`contConcCtxErrs`); and when the dialect's `len` is negative (the v7
configuration) every `CONC` line additionally reports
`<line>: CONC not permitted` and appends nothing. -/
theorem c4_cont_conc_append (cfg : GedcConf) (st : ParseState) (ln : RawLine)
    (top : Frame) (rest : List Frame) (recs : List GTree)
    (hlev : ¬ln.level > st.stack.length)
    (hclose : closeTo ln.level st.stack st.records = (top :: rest, recs)) :
    (ln.tag = "CONT" →
      stepLine cfg st ln = some ⟨{top with payload := some (top.payload.getD ""
          ++ "\n" ++ (ln.payload.map decodePayload).getD "")} :: rest,
        recs, st.ids, contConcCtxErrs st ln top, st.line + 1⟩)
    ∧ (ln.tag = "CONC" → ∀ l : Int, cfg.len = some l → l < 0 →
      stepLine cfg st ln = some ⟨{top with payload := some (top.payload.getD "")} :: rest,
        recs, st.ids,
        contConcCtxErrs st ln top
          ++ [String.mk (natToDigits (st.line + 1)) ++ ": CONC not permitted"],
        st.line + 1⟩)
    ∧ (ln.tag = "CONC" → ∀ l : Int, cfg.len = some l → ¬l < 0 →
      stepLine cfg st ln = some ⟨{top with payload := some (top.payload.getD ""
          ++ (ln.payload.map decodePayload).getD "")} :: rest,
        recs, st.ids, contConcCtxErrs st ln top, st.line + 1⟩)
    ∧ (ln.tag = "CONC" → cfg.len = none →
      stepLine cfg st ln = some ⟨{top with payload := some (top.payload.getD ""
          ++ (ln.payload.map decodePayload).getD "")} :: rest,
        recs, st.ids, contConcCtxErrs st ln top, st.line + 1⟩) := by
  refine ⟨?_, ?_, ?_, ?_⟩
  · intro htag
    rw [stepLine, if_neg hlev, hclose]
    dsimp only
    rw [if_pos (Or.inl htag), if_pos htag]
    rfl
  · intro htag l hl hneg
    have hne : ¬ln.tag = "CONT" := by
      rw [htag]
      decide
    rw [stepLine, if_neg hlev, hclose]
    dsimp only
    rw [if_pos (Or.inr htag), if_neg hne, hl, if_pos (by simpa using hneg)]
    rfl
  · intro htag l hl hpos
    have hne : ¬ln.tag = "CONT" := by
      rw [htag]
      decide
    rw [stepLine, if_neg hlev, hclose]
    dsimp only
    rw [if_pos (Or.inr htag), if_neg hne, hl, if_neg (by simpa using hpos)]
    rfl
  · intro htag hl
    have hne : ¬ln.tag = "CONT" := by
      rw [htag]
      decide
    rw [stepLine, if_neg hlev, hclose]
    dsimp only
    rw [if_pos (Or.inr htag), if_neg hne, hl, if_neg (by simp)]
    rfl

/-- Witness for claim C4 at concrete inputs: inside a `NOTE` structure
whose payload is `"a"`, a `CONT b` line yields payload `"a\nb"`; with the
v7 dialect (`len = -1`) a `CONC b` line leaves the payload `"a"` and
reports `2: CONC not permitted`; with a `len`-free dialect `CONC b` yields
`"ab"`. -/
theorem c4_cont_conc_append_witness :
    stepLine g7ConfLen ⟨[⟨"NOTE", none, none, some "a", []⟩], [], [("VOID", none)], [], 1⟩
        ⟨1, none, "CONT", none, some "b"⟩
      = some ⟨[⟨"NOTE", none, none, some "a\nb", []⟩], [], [("VOID", none)], [], 2⟩
    ∧ stepLine g7ConfLen ⟨[⟨"NOTE", none, none, some "a", []⟩], [], [("VOID", none)], [], 1⟩
        ⟨1, none, "CONC", none, some "b"⟩
      = some ⟨[⟨"NOTE", none, none, some "a", []⟩], [], [("VOID", none)],
          ["2: CONC not permitted"], 2⟩
    ∧ stepLine ⟨none⟩ ⟨[⟨"NOTE", none, none, some "a", []⟩], [], [], [], 1⟩
        ⟨1, none, "CONC", none, some "b"⟩
      = some ⟨[⟨"NOTE", none, none, some "ab", []⟩], [], [], [], 2⟩ := by
  refine ⟨?_, ?_, ?_⟩
  · have h := (c4_cont_conc_append g7ConfLen
      ⟨[⟨"NOTE", none, none, some "a", []⟩], [], [("VOID", none)], [], 1⟩
      ⟨1, none, "CONT", none, some "b"⟩
      ⟨"NOTE", none, none, some "a", []⟩ [] [] (by decide) rfl).1 rfl
    exact h
  · have h := (c4_cont_conc_append g7ConfLen
      ⟨[⟨"NOTE", none, none, some "a", []⟩], [], [("VOID", none)], [], 1⟩
      ⟨1, none, "CONC", none, some "b"⟩
      ⟨"NOTE", none, none, some "a", []⟩ [] [] (by decide) rfl).2.1 rfl
      (-1) rfl (by decide)
    exact h
  · have h := (c4_cont_conc_append ⟨none⟩
      ⟨[⟨"NOTE", none, none, some "a", []⟩], [], [], [], 1⟩
      ⟨1, none, "CONC", none, some "b"⟩
      ⟨"NOTE", none, none, some "a", []⟩ [] [] (by decide) rfl).2.2.2 rfl rfl
    exact h

/-- Claim C8 fails in the code: validating an `EXID` structure with no
`EXID-TYPE` substructure reaches `warn(\x60Lacking recommended EXID-TYPE
substructure\x60)` — but `warn` is a bare undefined identifier (the working
sink is `this.#lookup.warn`), so the call raises a ReferenceError:
`validate()` does not complete (`count = none`) and nothing is ever sent
to the warn sink, instead of the claimed emit-once-and-continue. -/
theorem c8_exid_deprecation_crashes (vlk : VLookup) (dlk : G7Lookups)
    (payload : VPayload) (sub : List G7Node)
    (h : ¬(subHas sub "https://gedcom.io/terms/v7/EXID-TYPE" = true)) :
    (validateNode vlk dlk (.mk "https://gedcom.io/terms/v7/EXID" payload sub)).count
      = none
    ∧ (validateNode vlk dlk (.mk "https://gedcom.io/terms/v7/EXID" payload sub)).warns
      = [] := by
  rw [validateNode]
  dsimp only
  rw [if_pos ⟨rfl, h⟩]
  exact ⟨rfl, rfl⟩

/-- Witness for claim C8's crash theorem: a concrete `EXID` structure with
payload `"123"` and no substructures. -/
theorem c8_exid_deprecation_crashes_witness :
    ¬(subHas [] "https://gedcom.io/terms/v7/EXID-TYPE" = true)
    ∧ (validateNode ⟨[], []⟩ stdLookup
        (.mk "https://gedcom.io/terms/v7/EXID" (.str "123") [])).count = none
    ∧ (validateNode ⟨[], []⟩ stdLookup
        (.mk "https://gedcom.io/terms/v7/EXID" (.str "123") [])).warns = [] := by
  refine ⟨by decide, ?_⟩
  exact c8_exid_deprecation_crashes ⟨[], []⟩ stdLookup (.str "123") [] (by decide)

theorem size_pos (n : G7Node) : 1 ≤ n.size := by
  cases n with
  | mk t p sub =>
    rw [G7Node.size]
    omega

/-- When `validate()` completes, the count it returns is the number of
error messages it sent to the error sink. -/
theorem validate_count_eq_errs (vlk : VLookup) (dlk : G7Lookups) :
    ∀ N : Nat,
    (∀ n : G7Node, n.size ≤ N → ∀ k, (validateNode vlk dlk n).count = some k →
      k = (validateNode vlk dlk n).errs.length)
    ∧ (∀ l : List G7Node, sizeNodes l ≤ N → ∀ k,
      (validateList vlk dlk l).count = some k →
      k = (validateList vlk dlk l).errs.length) := by
  intro N
  induction N using Nat.strong_induction_on with
  | _ N ih =>
    have hnode : ∀ n : G7Node, n.size ≤ N → ∀ k,
        (validateNode vlk dlk n).count = some k →
        k = (validateNode vlk dlk n).errs.length := by
      intro n hsz k hk
      cases n with
      | mk ty payload sub =>
        rw [G7Node.size] at hsz
        have hsub : sizeNodes sub < N := by omega
        rw [validateNode] at hk ⊢
        dsimp only at hk ⊢
        by_cases hex : ty = "https://gedcom.io/terms/v7/EXID"
            ∧ ¬(subHas sub "https://gedcom.io/terms/v7/EXID-TYPE" = true)
        · rw [if_pos hex] at hk
          cases hk
        · rw [if_neg hex] at hk ⊢
          dsimp only at hk ⊢
          cases hl : (validateList vlk dlk sub).count with
          | none =>
            rw [hl] at hk
            cases hk
          | some k2 =>
            rw [hl] at hk
            injection hk with hk'
            simp only [] at hk'
            have h2 := ((ih (sizeNodes sub) hsub).2 sub le_rfl) k2 hl
            simp only [List.length_append]
            omega
    refine ⟨hnode, ?_⟩
    intro l hsz k hk
    cases l with
    | nil =>
      rw [validateList] at hk ⊢
      injection hk with hk'
      subst hk'
      rfl
    | cons c cs =>
      rw [sizeNodes] at hsz
      have hc1 : 1 ≤ c.size := size_pos c
      rw [validateList] at hk ⊢
      dsimp only at hk ⊢
      cases hcc : (validateNode vlk dlk c).count with
      | none =>
        rw [hcc] at hk
        cases hk
      | some kc =>
        rw [hcc] at hk
        dsimp only at hk ⊢
        cases hcs : (validateList vlk dlk cs).count with
        | none =>
          rw [hcs] at hk
          cases hk
        | some ks =>
          rw [hcs] at hk
          injection hk with hk'
          simp only [] at hk'
          have h1 := hnode c (by omega) kc hcc
          have h2 := ((ih (sizeNodes cs) (by omega)).2 cs le_rfl) ks hcs
          simp only [List.length_append]
          omega

theorem str_append_left_cancel {a b c : String} (h : a ++ b = a ++ c) : b = c := by
  cases a with
  | mk la =>
    cases b with
    | mk lb =>
      cases c with
      | mk lc =>
        have h2 : la ++ lb = la ++ lc := congrArg String.data h
        exact congrArg String.mk (List.append_cancel_left h2)

theorem str_append_ne_head {a b : String} (s t : String) {c d : Char}
    (ha : a.data.head? = some c) (hb : b.data.head? = some d) (hcd : c ≠ d) :
    a ++ s ≠ b ++ t := by
  intro h
  cases a with
  | mk la =>
    cases b with
    | mk lb =>
      cases la with
      | nil => cases ha
      | cons x xs =>
        cases lb with
        | nil => cases hb
        | cons y ys =>
          injection ha with ha'
          injection hb with hb'
          subst ha'
          subst hb'
          have h2 : x :: (xs ++ s.data) = y :: (ys ++ t.data) :=
            congrArg String.data h
          exact hcd (by injection h2)

theorem str_data_head_append (a b : String) (c : Char)
    (h : a.data.head? = some c) : (a ++ b).data.head? = some c := by
  cases a with
  | mk la =>
    cases la with
    | nil => cases h
    | cons x xs =>
      injection h with h'
      subst h'
      rfl

theorem cardSpec_count_zero (ty : String) (sub : List G7Node) (v w : SubSpec)
    (hne : ¬w.type = v.type) :
    (cardSpecMsgs ty sub w).count
      ("Missing substructure: " ++ ty ++ " requires a " ++ v.type) = 0 := by
  have hmiss : ("Missing substructure: " ++ ty ++ " requires a " ++ w.type)
      ≠ ("Missing substructure: " ++ ty ++ " requires a " ++ v.type) := by
    intro h
    exact hne (str_append_left_cancel h)
  have hdup : ("Duplicate substructures: " ++ ty ++ " may have at most one " ++ w.type)
      ≠ ("Missing substructure: " ++ ty ++ " requires a " ++ v.type) :=
    str_append_ne_head _ _
      (str_data_head_append _ _ _ (str_data_head_append _ _ _ rfl))
      (str_data_head_append _ _ _ (str_data_head_append _ _ _ rfl))
      (by decide)
  rw [cardSpecMsgs, List.count_append]
  by_cases h1 : cardChar w.cardinality 1 = some '1' ∧ ¬(subHas sub w.type = true)
  · rw [if_pos h1]
    by_cases h2 : cardChar w.cardinality 3 = some '1' ∧ subHas sub w.type = true
        ∧ subCount sub w.type > 1
    · rw [if_pos h2]
      simp [List.count_cons, hmiss, hdup]
    · rw [if_neg h2]
      simp [List.count_cons, hmiss]
  · rw [if_neg h1]
    by_cases h2 : cardChar w.cardinality 3 = some '1' ∧ subHas sub w.type = true
        ∧ subCount sub w.type > 1
    · rw [if_pos h2]
      simp [List.count_cons, hdup]
    · rw [if_neg h2]
      simp

theorem cardSpec_count_one (ty : String) (sub : List G7Node) (v : SubSpec)
    (hcard : cardChar v.cardinality 1 = some '1')
    (habs : subHas sub v.type = false) :
    (cardSpecMsgs ty sub v).count
      ("Missing substructure: " ++ ty ++ " requires a " ++ v.type) = 1 := by
  rw [cardSpecMsgs, List.count_append]
  rw [if_pos ⟨hcard, by simp [habs]⟩]
  rw [if_neg (by simp [habs])]
  simp [List.count_cons]

theorem flat_count_zero (ty : String) (sub : List G7Node) (v : SubSpec)
    (ws : List SubSpec) (h : ∀ w ∈ ws, ¬(w.type = v.type)) :
    (ws.flatMap (cardSpecMsgs ty sub)).count
      ("Missing substructure: " ++ ty ++ " requires a " ++ v.type) = 0 := by
  induction ws with
  | nil => rfl
  | cons w ws ih =>
    show ((cardSpecMsgs ty sub w ++ ws.flatMap (cardSpecMsgs ty sub)).count _) = 0
    rw [List.count_append,
      cardSpec_count_zero ty sub v w (h w (List.mem_cons_self _ _)),
      ih (fun x hx => h x (List.mem_cons_of_mem _ hx))]

theorem missing_in_specs_count (ty : String) (sub : List G7Node) (v : SubSpec)
    (hcard : cardChar v.cardinality 1 = some '1')
    (habs : subHas sub v.type = false) :
    ∀ specs : List SubSpec,
    specs.filter (fun w => decide (w.type = v.type)) = [v] →
    (specs.flatMap (cardSpecMsgs ty sub)).count
      ("Missing substructure: " ++ ty ++ " requires a " ++ v.type) = 1 := by
  intro specs
  induction specs with
  | nil => intro h; cases h
  | cons w ws ih =>
    intro hone
    rw [List.filter_cons] at hone
    by_cases hwv : w.type = v.type
    · rw [if_pos (by simpa using hwv)] at hone
      injection hone with h1 h2
      subst h1
      show ((cardSpecMsgs ty sub w ++ ws.flatMap (cardSpecMsgs ty sub)).count _) = 1
      rw [List.count_append, cardSpec_count_one ty sub w hcard habs,
        flat_count_zero ty sub w ws ?_]
      intro x hx hxx
      have : x ∈ ws.filter (fun w' => decide (w'.type = w.type)) :=
        List.mem_filter.mpr ⟨hx, by simpa using hxx⟩
      rw [h2] at this
      cases this
    · rw [if_neg (by simpa using hwv)] at hone
      show ((cardSpecMsgs ty sub w ++ ws.flatMap (cardSpecMsgs ty sub)).count _) = 1
      rw [List.count_append, cardSpec_count_zero ty sub v w hwv, ih hone]

theorem emptyMsgs_count_zero (ty : String) (payload : VPayload) (sub : List G7Node)
    (ctype : String) :
    (emptyMsgs ty payload sub).count
      ("Missing substructure: " ++ ty ++ " requires a " ++ ctype) = 0 := by
  have hne : ("Empty structure: " ++ ty ++ " with no substructure and no payload")
      ≠ ("Missing substructure: " ++ ty ++ " requires a " ++ ctype) := by
    have := str_append_ne_head
      (a := "Empty structure: " ++ ty)
      (b := ("Missing substructure: " ++ ty) ++ " requires a ")
      " with no substructure and no payload" ctype
      (str_data_head_append _ _ _ rfl)
      (str_data_head_append _ _ _ (str_data_head_append _ _ _ rfl))
      (by decide)
    exact this
  rw [emptyMsgs]
  by_cases h : sub.isEmpty ∧ payloadEmptyish payload = true
  · rw [if_pos h]
    simp [List.count_cons, hne]
  · rw [if_neg h]
    rfl

theorem payloadMsgs_count_zero (vlk : VLookup) (dlk : G7Lookups) (ty : String)
    (payload : VPayload) (ctype : String) :
    (payloadMsgs vlk dlk ty payload).count
      ("Missing substructure: " ++ ty ++ " requires a " ++ ctype) = 0 := by
  have hne : ("Invalid payload: " ++ ty ++ " requires a " ++ pltDesc (vPayloadDef vlk ty)
        ++ ", not " ++ payloadDesc dlk payload)
      ≠ ("Missing substructure: " ++ ty ++ " requires a " ++ ctype) := by
    have := str_append_ne_head
      (a := (((("Invalid payload: " ++ ty) ++ " requires a ")
        ++ pltDesc (vPayloadDef vlk ty)) ++ ", not "))
      (b := ("Missing substructure: " ++ ty) ++ " requires a ")
      (payloadDesc dlk payload) ctype
      (str_data_head_append _ _ _ (str_data_head_append _ _ _
        (str_data_head_append _ _ _ (str_data_head_append _ _ _ rfl))))
      (str_data_head_append _ _ _ (str_data_head_append _ _ _ rfl))
      (by decide)
    exact this
  rw [payloadMsgs]
  by_cases h : ¬(checkDatatype payload (vPayloadDef vlk ty) = true)
  · rw [if_pos h]
    simp [List.count_cons, hne]
  · rw [if_neg h]
    rfl

/-- Claim C7: when the schema entry for a structure's type lists exactly
one child specification for the child type `v.type` with cardinality lower
bound `'1'` (character 1 of the cardinality string), and the structure has
no child of that type, `validate()` reports the error
`Missing substructure: <type> requires a <v.type>` exactly once (the
hypothesis `hkids` attributes the count to this structure: no
substructure's own validation reports that same string), and — when
validation of the substructures completes, the structure not being an
`EXID` that crashes per claim C8 — the returned count equals the number
of reported errors, so the missing-substructure error is counted. -/
theorem c7_missing_substructure_once (vlk : VLookup) (dlk : G7Lookups)
    (ty : String) (payload : VPayload) (sub : List G7Node) (v : SubSpec)
    (specs : List SubSpec)
    (hspecs : lkAssoc vlk.substructure ty = some specs)
    (hone : specs.filter (fun w => decide (w.type = v.type)) = [v])
    (hcard : cardChar v.cardinality 1 = some '1')
    (habs : subHas sub v.type = false)
    (hty : ¬ty = "https://gedcom.io/terms/v7/EXID")
    (hkids : ("Missing substructure: " ++ ty ++ " requires a " ++ v.type)
      ∉ (validateList vlk dlk sub).errs)
    (hrun : ∃ k, (validateList vlk dlk sub).count = some k) :
    (validateNode vlk dlk (.mk ty payload sub)).errs.count
        ("Missing substructure: " ++ ty ++ " requires a " ++ v.type) = 1
    ∧ (validateNode vlk dlk (.mk ty payload sub)).count
        = some (validateNode vlk dlk (.mk ty payload sub)).errs.length := by
  obtain ⟨k, hk⟩ := hrun
  have hnex : ¬(ty = "https://gedcom.io/terms/v7/EXID"
      ∧ ¬(subHas sub "https://gedcom.io/terms/v7/EXID-TYPE" = true)) :=
    fun hc => hty hc.1
  have herrs : (validateNode vlk dlk (.mk ty payload sub)).errs
      = ownValidateMsgs vlk dlk ty payload sub ++ (validateList vlk dlk sub).errs := by
    rw [validateNode]
    dsimp only
    rw [if_neg hnex]
  have hcount : (validateNode vlk dlk (.mk ty payload sub)).count
      = some ((ownValidateMsgs vlk dlk ty payload sub).length + k) := by
    rw [validateNode]
    dsimp only
    rw [if_neg hnex]
    show ((validateList vlk dlk sub).count.map _) = _
    rw [hk]
    rfl
  constructor
  · rw [herrs, List.count_append]
    rw [List.count_eq_zero.mpr hkids]
    rw [ownValidateMsgs, List.count_append, List.count_append]
    rw [cardinalityMsgs, hspecs,
      missing_in_specs_count ty sub v hcard habs specs hone,
      emptyMsgs_count_zero, payloadMsgs_count_zero]
  · have hkerr := ((validate_count_eq_errs vlk dlk (sizeNodes sub)).2 sub le_rfl) k hk
    rw [hcount, herrs, List.length_append, hkerr]

/-- Witness for claim C7: a childless `record-INDI` structure under
`vlkC7` reports the missing-`NAME` error exactly once and counts it. -/
theorem c7_missing_substructure_once_witness :
    (validateNode vlkC7 stdLookup
        (.mk "https://gedcom.io/terms/v7/record-INDI" (.str "x") [])).errs.count
      ("Missing substructure: " ++ "https://gedcom.io/terms/v7/record-INDI"
        ++ " requires a " ++ "https://gedcom.io/terms/v7/NAME") = 1
    ∧ (validateNode vlkC7 stdLookup
        (.mk "https://gedcom.io/terms/v7/record-INDI" (.str "x") [])).count
      = some (validateNode vlkC7 stdLookup
          (.mk "https://gedcom.io/terms/v7/record-INDI" (.str "x") [])).errs.length := by
  exact c7_missing_substructure_once vlkC7 stdLookup
    "https://gedcom.io/terms/v7/record-INDI" (.str "x") []
    ⟨some "{1:1}", "https://gedcom.io/terms/v7/NAME"⟩
    [⟨some "{1:1}", "https://gedcom.io/terms/v7/NAME"⟩]
    rfl (by decide) (by decide) rfl (by decide)
    (by simp [validateList]) ⟨0, rfl⟩

theorem wrapStep_append_short (pfx : List Char) (pads : List (List Char))
    (l : List Char) (hp : ∀ p ∈ pads, ¬p.length > 7) (hl : l.length > 7) :
    wrapStep 7 pfx (pads ++ [l]) = some (pads ++ [l.take 7, pfx ++ l.drop 7]) := by
  induction pads with
  | nil =>
    rw [List.nil_append, wrapStep, if_pos hl]
    rfl
  | cons p ps ih =>
    rw [List.cons_append, wrapStep, if_neg (hp p (List.mem_cons_self _ _)),
      ih (fun q hq => hp q (List.mem_cons_of_mem _ hq))]
    rfl

theorem wrapLoop_div7 : ∀ (fuel : Nat) (pads : List (List Char)) (l : List Char),
    (∀ p ∈ pads, ¬p.length > 7) → l.length = 15 → l.drop 7 = "abcdefgh".data →
    wrapLoop fuel 7 "1 CONC ".data (pads ++ [l]) = none := by
  intro fuel
  induction fuel with
  | zero =>
    intro pads l hp hl hd
    rw [wrapLoop, wrapStep_append_short _ pads l hp (by omega)]
  | succ f ih =>
    intro pads l hp hl hd
    rw [wrapLoop, wrapStep_append_short _ pads l hp (by omega)]
    have hsplit : pads ++ [l.take 7, "1 CONC ".data ++ l.drop 7]
        = (pads ++ [l.take 7]) ++ ["1 CONC ".data ++ l.drop 7] := by
      simp
    rw [hsplit]
    apply ih
    · intro p hp2
      rcases List.mem_append.mp hp2 with h | h
      · exact hp p h
      · have hpl : p = l.take 7 := by simpa using h
        subst hpl
        simp [List.length_take]
    · simp [hl]
    · have h7 : ("1 CONC ".data).length = 7 := rfl
      calc ("1 CONC ".data ++ l.drop 7).drop 7
          = ("1 CONC ".data ++ l.drop 7).drop ("1 CONC ".data).length := by rw [h7]
        _ = l.drop 7 := List.drop_left _ _
        _ = "abcdefgh".data := hd

theorem wrapLoop_ok_no_long (fuel maxlen : Nat) (pfx : List Char) :
    ∀ (ls out : List (List Char)), wrapLoop fuel maxlen pfx ls = some out →
    wrapStep maxlen pfx out = none := by
  induction fuel with
  | zero =>
    intro ls out h
    rw [wrapLoop] at h
    cases hs : wrapStep maxlen pfx ls with
    | some l2 =>
      rw [hs] at h
      cases h
    | none =>
      rw [hs] at h
      injection h with h'
      subst h'
      exact hs
  | succ f ih =>
    intro ls out h
    rw [wrapLoop] at h
    cases hs : wrapStep maxlen pfx ls with
    | some l2 =>
      rw [hs] at h
      exact ih l2 out h
    | none =>
      rw [hs] at h
      injection h with h'
      subst h'
      exact hs

theorem wrapStep_none_short (maxlen : Nat) (pfx : List Char) :
    ∀ ls : List (List Char), wrapStep maxlen pfx ls = none →
    ∀ l ∈ ls, ¬l.length > maxlen := by
  intro ls
  induction ls with
  | nil =>
    intro _ l hl
    cases hl
  | cons x xs ih =>
    intro h l hl
    rw [wrapStep] at h
    by_cases hx : x.length > maxlen
    · rw [if_pos hx] at h
      cases h
    · rw [if_neg hx] at h
      rcases List.mem_cons.mp hl with rfl | hmem
      · exact hx
      · cases hs : wrapStep maxlen pfx xs with
        | some l2 =>
          rw [hs] at h
          cases h
        | none => exact ih hs l hmem

theorem concAtFix_len (escapes : Bool) (l : List Char) :
    (concAtFix escapes l).length ≤ l.length + 1 := by
  rw [concAtFix]
  dsimp only
  by_cases hds : (l.takeWhile Char.isDigit).isEmpty
  · rw [if_pos hds]
    omega
  · rw [if_neg hds]
    have hsplit : l.takeWhile Char.isDigit ++ l.dropWhile Char.isDigit = l :=
      List.takeWhile_append_dropWhile _ _
    split
    · next tail heq =>
      have hlen : l.length = (l.takeWhile Char.isDigit).length + 7 + tail.length := by
        have := congrArg List.length hsplit
        rw [heq] at this
        simp at this
        omega
      split
      · split
        · omega
        · simp
          omega
      · simp
        omega
    · omega

theorem slinesLen_member (ls : List (List Char)) (l : List Char) (h : l ∈ ls) :
    l.length ≤ slinesLen ls := by
  rw [slinesLen]
  have h1 : l.length ∈ ls.map List.length := List.mem_map_of_mem _ h
  have h2 : l.length ≤ (ls.map List.length).sum :=
    List.single_le_sum (fun x _ => Nat.zero_le x) _ h1
  omega

theorem serialize_div7 (fuel : Nat) :
    serializeOwnLines 0 "NOTE" none (.pstr "abcdefgh") 7 false fuel = .noFuel := by
  rw [serializeOwnLines]
  dsimp only
  have hall : ownLinesRaw 0 "NOTE" none false "abcdefgh"
      = [] ++ ["0 NOTE abcdefgh".data] := by decide
  rw [hall, if_pos (by decide), if_neg (by decide)]
  have hpfx : natToDigits (0 + 1) ++ " CONC ".data = "1 CONC ".data := by decide
  rw [hpfx, show Int.toNat 7 = 7 from rfl,
    wrapLoop_div7 fuel [] "0 NOTE abcdefgh".data (by intro p hp; cases hp)
      (by decide) (by decide)]

/-- Counterexample to claim C3 as stated: (i) a payload-less structure
whose leader exceeds the limit is returned unwrapped and unchecked — with
`n = 3` the single line `0 NOTE` has 6 > 3 characters, yet serialization
neither wraps nor throws, falsifying both halves of the claim; (ii) with
`n = 7` and payload `abcdefgh` the wrap loop never terminates (for every
fuel the model reports divergence), so serialization neither returns nor
throws; (iii) with `n = 9` and payload `ab@cd` the post-wrap `@`-doubling
produces the line `1 CONC @@c` of 10 > 9 characters inside a returned
result. -/
theorem c3_wrap_counterexample :
    (streeToString 0 (.mk "NOTE" none .pnone []) 3 true 10 = .ok ["0 NOTE".data]
      ∧ "0 NOTE".data.length > 3)
    ∧ (∀ fuel : Nat,
        streeToString 0 (.mk "NOTE" none (.pstr "abcdefgh") []) 7 false fuel = .noFuel)
    ∧ (streeToString 0 (.mk "NOTE" none (.pstr "ab@cd") []) 9 false 50
        = .ok ["0 NOTE ab".data, "1 CONC @@c".data, "1 CONC d".data]
      ∧ "1 CONC @@c".data.length > 9) := by
  refine ⟨⟨by decide, by decide⟩, ?_, by decide, by decide⟩
  intro fuel
  rw [streeToString, serialize_div7 fuel]

theorem streeToString_leaf (level : Nat) (tag : String) (id : Option String)
    (p : SPayload) (maxlen : Int) (escapes : Bool) (fuel : Nat) :
    streeToString level (.mk tag id p []) maxlen escapes fuel
      = match serializeOwnLines level tag id p maxlen escapes fuel with
        | .ok own => .ok (own ++ [])
        | r => r := by
  rfl

/-- Claim C3 (amended): for a *string* payload with positive limit `n`,
(A) every line of a returned serialization has at most `n + 1` characters
(the post-wrap `@`-doubling can add one character to a wrapped line, so
the claimed bound `n` is off by one); (B) when the oversize check fires,
serialization throws exactly when `n` is smaller than the leader
`<level> [@<id>@ ]<tag>` — for a pointed-to structure the leader includes
its `@<id>@ ` segment — the code's other smallness check compares against
a string and never fires; (C) conversely an error return implies that
leader condition, with the claimed error message; (D) pointer,
null-pointer and absent payloads are serialized without any length check
or wrapping; (E) lifts (A) to `toString` of a leaf structure.  (Wrapping
may also diverge, see the counterexample.) -/
theorem c3_wrap_amended :
    (∀ (level : Nat) (tag : String) (id : Option String) (s : String)
      (maxlen : Int) (escapes : Bool) (fuel : Nat)
      (lines : List (List Char)), 0 < maxlen →
      serializeOwnLines level tag id (.pstr s) maxlen escapes fuel = .ok lines →
      ∀ l ∈ lines, l.length ≤ maxlen.toNat + 1)
    ∧ (∀ (level : Nat) (tag : String) (id : Option String) (s : String)
      (maxlen : Int) (escapes : Bool) (fuel : Nat),
      0 < maxlen →
      (slinesLen (ownLinesRaw level tag id escapes s) : Int) > maxlen →
      ((sleader level id tag).length : Int) > maxlen →
      serializeOwnLines level tag id (.pstr s) maxlen escapes fuel
        = .err ("length limit " ++ jsIntRepr maxlen ++ " too small to allow CONC insertion"))
    ∧ (∀ (level : Nat) (tag : String) (id : Option String) (s : String)
      (maxlen : Int) (escapes : Bool) (fuel : Nat)
      (m : String),
      serializeOwnLines level tag id (.pstr s) maxlen escapes fuel = .err m →
      ((sleader level id tag).length : Int) > maxlen
        ∧ m = "length limit " ++ jsIntRepr maxlen ++ " too small to allow CONC insertion")
    ∧ (∀ (level : Nat) (tag : String) (id : Option String) (t : String)
      (maxlen : Int) (escapes : Bool) (fuel : Nat),
      serializeOwnLines level tag id .pnone maxlen escapes fuel
          = .ok [sleader level id tag]
      ∧ serializeOwnLines level tag id .pnull maxlen escapes fuel
          = .ok [sleader level id tag ++ " @VOID@".data]
      ∧ serializeOwnLines level tag id (.pref t) maxlen escapes fuel
          = .ok [sleader level id tag ++ (' ' :: '@' :: (t.data ++ ['@']))])
    ∧ (∀ (level : Nat) (tag : String) (id : Option String) (s : String)
      (maxlen : Int) (escapes : Bool) (fuel : Nat)
      (lines : List (List Char)), 0 < maxlen →
      streeToString level (.mk tag id (.pstr s) []) maxlen escapes fuel = .ok lines →
      ∀ l ∈ lines, l.length ≤ maxlen.toNat + 1) := by
  have hA : ∀ (level : Nat) (tag : String) (id : Option String) (s : String)
      (maxlen : Int) (escapes : Bool) (fuel : Nat)
      (lines : List (List Char)), 0 < maxlen →
      serializeOwnLines level tag id (.pstr s) maxlen escapes fuel = .ok lines →
      ∀ l ∈ lines, l.length ≤ maxlen.toNat + 1 := by
    intro level tag id s maxlen escapes fuel lines hm hok
    rw [serializeOwnLines] at hok
    dsimp only at hok
    by_cases hcond : maxlen > 0
        ∧ (slinesLen (ownLinesRaw level tag id escapes s) : Int) > maxlen
    · rw [if_pos hcond] at hok
      by_cases hlead : ((sleader level id tag).length : Int) > maxlen
      · rw [if_pos hlead] at hok
        cases hok
      · rw [if_neg hlead] at hok
        cases hwl : wrapLoop fuel maxlen.toNat (natToDigits (level + 1) ++ " CONC ".data)
            (ownLinesRaw level tag id escapes s) with
        | none =>
          rw [hwl] at hok
          cases hok
        | some out =>
          rw [hwl] at hok
          injection hok with h'
          subst h'
          intro l hl
          obtain ⟨l0, hl0, rfl⟩ := List.mem_map.mp hl
          have h1 := wrapStep_none_short maxlen.toNat _ out
            (wrapLoop_ok_no_long fuel maxlen.toNat _ _ out hwl) l0 hl0
          have h2 := concAtFix_len escapes l0
          omega
    · rw [if_neg hcond] at hok
      injection hok with h'
      subst h'
      intro l hl
      have hle : (slinesLen (ownLinesRaw level tag id escapes s) : Int) ≤ maxlen := by
        by_contra hgt
        exact hcond ⟨hm, by omega⟩
      have hmem := slinesLen_member _ l hl
      omega
  refine ⟨hA, ?_, ?_, ?_, ?_⟩
  · intro level tag id s maxlen escapes fuel hm hlen hlead
    rw [serializeOwnLines]
    dsimp only
    rw [if_pos ⟨hm, hlen⟩, if_pos hlead]
  · intro level tag id s maxlen escapes fuel m herr
    rw [serializeOwnLines] at herr
    dsimp only at herr
    by_cases hcond : maxlen > 0
        ∧ (slinesLen (ownLinesRaw level tag id escapes s) : Int) > maxlen
    · rw [if_pos hcond] at herr
      by_cases hlead : ((sleader level id tag).length : Int) > maxlen
      · rw [if_pos hlead] at herr
        injection herr with h'
        exact ⟨hlead, h'.symm⟩
      · rw [if_neg hlead] at herr
        cases hwl : wrapLoop fuel maxlen.toNat (natToDigits (level + 1) ++ " CONC ".data)
            (ownLinesRaw level tag id escapes s) with
        | none =>
          rw [hwl] at herr
          cases herr
        | some out =>
          rw [hwl] at herr
          cases herr
    · rw [if_neg hcond] at herr
      cases herr
  · intro level tag id t maxlen escapes fuel
    exact ⟨rfl, rfl, rfl⟩
  · intro level tag id s maxlen escapes fuel lines hm hok
    rw [streeToString_leaf] at hok
    cases hso : serializeOwnLines level tag id (.pstr s) maxlen escapes fuel with
    | ok own =>
      rw [hso] at hok
      injection hok with h'
      subst h'
      intro l hl
      exact hA level tag id s maxlen escapes fuel own hm hso l (by simpa using hl)
    | err m =>
      rw [hso] at hok
      cases hok
    | noFuel =>
      rw [hso] at hok
      cases hok

/-- Witness for claim C3's amended statement at concrete inputs: the
`n = 9` wrap of payload `ab@cd` stays within `n + 1 = 10` per line; with
`n = 3` and payload `abcdef` under tag `NOTE` (leader `0 NOTE`, 6 > 3
characters) serialization throws the claimed error; and a pointed-to
structure `0 @X1@ SNOTE` with payload `abcdefgh` throws at `n = 8`
because its leader `0 @X1@ SNOTE` has 12 > 8 characters, even though the
id-less leader `0 SNOTE` would fit. -/
theorem c3_wrap_amended_witness :
    (∀ l ∈ ["0 NOTE ab".data, "1 CONC @@c".data, "1 CONC d".data], l.length ≤ 10)
    ∧ serializeOwnLines 0 "NOTE" none (.pstr "abcdef") 3 false 9
        = .err ("length limit " ++ jsIntRepr 3 ++ " too small to allow CONC insertion")
    ∧ serializeOwnLines 0 "SNOTE" (some "X1") (.pstr "abcdefgh") 8 true 9
        = .err ("length limit " ++ jsIntRepr 8 ++ " too small to allow CONC insertion") := by
  refine ⟨?_, ?_, ?_⟩
  · exact c3_wrap_amended.2.2.2.2 0 "NOTE" none "ab@cd" 9 false 50
      ["0 NOTE ab".data, "1 CONC @@c".data, "1 CONC d".data] (by decide) (by decide)
  · exact c3_wrap_amended.2.1 0 "NOTE" none "abcdef" 3 false 9
      (by decide) (by decide) (by decide)
  · exact c3_wrap_amended.2.1 0 "SNOTE" (some "X1") "abcdefgh" 8 true 9
      (by decide) (by decide) (by decide)

/-- Counterexample to claim C1 as stated: the age `"0y"` parses to a value
with `years = 0` *defined*, but `toString` renders zero components as
absent, so it serializes to `""` and re-parses to the all-undefined age —
`parse(toString(v)) ≠ v`; and for `DateValue`s the one-sided range and
period values parsed from `"AFT 2020"` and `"TO 2020"` cannot be
serialized at all: their `toString` raises a ReferenceError (`else
if (date)` on an undefined identifier) resp. a TypeError (`this.date`
undefined), so no round-trip exists; finally a `Date` parsed from
`"GREGORIAN JULIAN 5"` (an unknown month on the default calendar) prints
as `"JULIAN 5"`, which re-parses to a different date. -/
theorem c1_roundtrip_counterexample :
    ((ageFromString "0y").1 = ⟨none, some 0, none, none, none⟩
      ∧ ageToString (ageFromString "0y").1 = ""
      ∧ (ageFromString (ageToString (ageFromString "0y").1)).1 ≠ (ageFromString "0y").1)
    ∧ (dvFromString stdLookup Logs.empty "AFT 2020").1.type = "dateRange"
    ∧ dvToString stdLookup (dvFromString stdLookup Logs.empty "AFT 2020").1
        = .error "ReferenceError: date is not defined"
    ∧ dvToString stdLookup (dvFromString stdLookup Logs.empty "TO 2020").1
        = .error "TypeError: this.date is undefined"
    ∧ ((dateFromString stdLookup Logs.empty "GREGORIAN JULIAN 5").1.calendar
          = "https://gedcom.io/terms/v7/cal-GREGORIAN"
      ∧ dateToString stdLookup
          (dateFromString stdLookup Logs.empty "GREGORIAN JULIAN 5").1 false
          = "JULIAN 5"
      ∧ (dateFromString stdLookup Logs.empty
          (dateToString stdLookup
            (dateFromString stdLookup Logs.empty "GREGORIAN JULIAN 5").1 false)).1
        ≠ (dateFromString stdLookup Logs.empty "GREGORIAN JULIAN 5").1) := by
  refine ⟨⟨by decide, by decide, by decide⟩, by decide, rfl, rfl,
    by decide, by decide, by decide⟩

/-- Claim C1 (amended): the parse/serialize round-trip holds for every
parseable `Age` all of whose defined components are nonzero (the failure
sentinel, whose `years` is `0`, is thereby excluded) and within the JS
safe integer range — beyond `2^53` the source's doubles round, and from
`1e21` its printing turns exponential, which the age regex rejects — and
for every parsed `Time` whose seconds have no fractional part (with no
error on the re-parse; fractional seconds go through inexact double
arithmetic in the source, see `timeIntSeconds`).  The `Date` and
`DateValue` halves of the claim are dropped: a parsed `Date` can print to
a payload that re-parses differently and a `DateValue` serializer can
raise (see the counterexample), so the claimed round-trip fails for
them. -/
theorem c1_roundtrip_amended :
    (∀ s : String, ageNoZero (ageFromString s).1 →
      ageSafe (ageFromString s).1 = true →
      (ageFromString (ageToString (ageFromString s).1)).1 = (ageFromString s).1)
    ∧ (∀ s : String, timeIntSeconds (timeFromString s).1 = true →
      timeFromString (timeToString (timeFromString s).1) = ((timeFromString s).1, [])) :=
  ⟨fun s h _ => ageRound_of_parse s h, fun s _ => timeRound_of_parse s⟩

/-- Witness for claim C1's amended statement: the age `"1y 2m"` (defined
components nonzero and within the safe range) and the fraction-free time
`"12:30:05Z"` both round-trip. -/
theorem c1_roundtrip_amended_witness :
    ageNoZero (ageFromString "1y 2m").1
    ∧ ageSafe (ageFromString "1y 2m").1 = true
    ∧ timeIntSeconds (timeFromString "12:30:05Z").1 = true
    ∧ (ageFromString (ageToString (ageFromString "1y 2m").1)).1
        = (ageFromString "1y 2m").1
    ∧ timeFromString (timeToString (timeFromString "12:30:05Z").1)
        = ((timeFromString "12:30:05Z").1, []) := by
  have h : ageNoZero (ageFromString "1y 2m").1 := by
    rw [ageNoZero]
    decide
  exact ⟨h, by decide, by decide, c1_roundtrip_amended.1 "1y 2m" h (by decide),
    c1_roundtrip_amended.2 "12:30:05Z" (by decide)⟩
